import Mathlib

/-!
# Verification of the RISC-V naive assembler (B extension)

Shallow embedding of `src/main.rs`: the register table, the 32-bit
`BinaryInstruction` buffer with inclusive-range bit set/get, the per-mnemonic
encoding recipes of `TextInstruction::convert`, line parsing, and the textual
renderings (`Display` impls).  Rust panics and `assert!` failures are modelled
by `Option` (`none` = the program aborts); `u8`/`usize` values are `Nat`.
-/

set_option maxHeartbeats 1000000

/-! ## String helpers (embedding of the `str` operations the source uses) -/

/-- Rust `line.split(sep)` for a one-character separator: splits on every
occurrence, keeping empty fragments (so `"".split` gives one empty fragment). -/
def splitChars (sep : Char) : List Char → List (List Char)
  | [] => [[]]
  | c :: rest =>
    match splitChars sep rest with
    | [] => [[]]
    | t :: ts => if c = sep then [] :: t :: ts else (c :: t) :: ts

/-- Joins fragments with a one-character separator; inverse of `splitChars`.
Used to express Rust's `line[index + 1 ..]` (the text after the first
separator) as the join of the remaining fragments. -/
def joinChars (sep : Char) : List (List Char) → List Char
  | [] => []
  | [l] => l
  | l :: rest => l ++ sep :: joinChars sep rest

/-- Rust `str::trim` on the ASCII whitespace occurring in assembler input. -/
def trimChars (cs : List Char) : List Char :=
  ((cs.dropWhile Char.isWhitespace).reverse.dropWhile Char.isWhitespace).reverse

/-- Rust `operands.join(sep)` (`[String]::join`). -/
def joinWith (sep : String) : List String → String
  | [] => ""
  | [s] => s
  | s :: rest => s ++ sep ++ joinWith sep rest

/-- Rust `str::parse::<u8>()`: an optional leading `+`, then one or more ASCII
digits, and the value must fit in `u8`; anything else is an error (`none`). -/
def parseU8 (s : String) : Option Nat :=
  let cs := match s.data with
    | '+' :: rest => rest
    | cs => cs
  if cs ≠ [] ∧ cs.all Char.isDigit then
    let v := cs.foldl (fun acc c => acc * 10 + (c.toNat - 48)) 0
    if v < 256 then some v else none
  else none

/-- One lower-case hexadecimal digit. -/
def hexDigit : Nat → Char
  | 0 => '0' | 1 => '1' | 2 => '2' | 3 => '3'
  | 4 => '4' | 5 => '5' | 6 => '6' | 7 => '7'
  | 8 => '8' | 9 => '9' | 10 => 'a' | 11 => 'b'
  | 12 => 'c' | 13 => 'd' | 14 => 'e' | _ => 'f'

/-- Rust `format!("{:02x}", byte)` for a `u8` value. -/
def hex2 (n : Nat) : String :=
  ⟨[hexDigit (n / 16 % 16), hexDigit (n % 16)]⟩

/-! ## Register table (`REG_MAP` and `reg_name2value`)

`reg_name2value` panics on an unknown name; here it returns `none`. -/

def reg_name2value (name : String) : Option Nat :=
  if name = "zero" then some 0
  else if name = "ra" then some 1
  else if name = "sp" then some 2
  else if name = "gp" then some 3
  else if name = "tp" then some 4
  else if name = "t0" then some 5
  else if name = "t1" then some 6
  else if name = "t2" then some 7
  else if name = "s0" then some 8
  else if name = "fp" then some 8
  else if name = "s1" then some 9
  else if name = "a0" then some 10
  else if name = "a1" then some 11
  else if name = "a2" then some 12
  else if name = "a3" then some 13
  else if name = "a4" then some 14
  else if name = "a5" then some 15
  else if name = "a6" then some 16
  else if name = "a7" then some 17
  else if name = "s2" then some 18
  else if name = "s3" then some 19
  else if name = "s4" then some 20
  else if name = "s5" then some 21
  else if name = "s6" then some 22
  else if name = "s7" then some 23
  else if name = "s8" then some 24
  else if name = "s9" then some 25
  else if name = "s10" then some 26
  else if name = "s11" then some 27
  else if name = "t3" then some 28
  else if name = "t4" then some 29
  else if name = "t5" then some 30
  else if name = "t6" then some 31
  else none

/-! ## `BinaryInstruction` -/

/-- The 4-byte instruction buffer `data: [u8; 4]` plus the two layout flags. -/
structure BinaryInstruction where
  data : Fin 4 → Nat
  flag_shamt : Bool
  flag_funct6 : Bool

def BinaryInstruction.new : BinaryInstruction :=
  { data := fun _ => 0, flag_shamt := false, flag_funct6 := false }

/-- The array read `data[byte_index]`; the out-of-range branch is unreachable
whenever the caller has checked the bit index against 32. -/
def byteAt (data : Fin 4 → Nat) (i : Nat) : Nat :=
  if h : i < 4 then data ⟨i, h⟩ else 0

/-- The bit test `data[index / 8] & (1 << (index % 8)) > 0` performed by
`BinaryInstruction::get`, as a 0/1 value.  The `else 0` branch corresponds to
an out-of-bounds array access (a panic) and is unreachable whenever the
caller has checked `index < 32`. -/
def readBit (data : Fin 4 → Nat) (index : Nat) : Nat :=
  if index < 32 then
    if byteAt data (index / 8) &&& (1 <<< (index % 8)) > 0 then 1 else 0
  else 0

/-- One iteration of the loop in `BinaryInstruction::set`: checks
`bits[i] == 0 || bits[i] == 1`, then clears (`&= !(1 << bit)`) or sets
(`|= 1 << bit`) the addressed bit.  `none` models the assertion failure or an
out-of-bounds `data[byte_index]` access. -/
def writeBit (data : Fin 4 → Nat) (index : Nat) (b : Nat) : Option (Fin 4 → Nat) :=
  if b = 0 ∨ b = 1 then
    if h : index < 32 then
      some (Function.update data ⟨index / 8, by omega⟩
        (if b = 0 then
          byteAt data (index / 8) &&& (255 ^^^ (1 <<< (index % 8)))
        else
          byteAt data (index / 8) ||| (1 <<< (index % 8))))
    else none
  else none

/-- The loop of `BinaryInstruction::set`, writing `bits` at consecutive
positions starting from `start`. -/
def setBits : (Fin 4 → Nat) → Nat → List Nat → Option (Fin 4 → Nat)
  | data, _, [] => some data
  | data, start, b :: rest => (writeBit data start b).bind fun d => setBits d (start + 1) rest

/-- `BinaryInstruction::set(begin, end, bits)`: asserts
`end - begin + 1 == bits.len()` (computed in `usize`; a negative difference is
an abort, modelled with the `Int` equation), then writes the bits over the
inclusive range `[lo, hi]`. -/
def BinaryInstruction.set (inst : BinaryInstruction) (lo hi : Nat) (bits : List Nat) :
    Option BinaryInstruction :=
  if (hi : Int) - (lo : Int) + 1 = (bits.length : Int) then
    (setBits inst.data lo bits).map fun d => { inst with data := d }
  else none

/-- `BinaryInstruction::get(begin, end)`: reads the inclusive range `[lo, hi]`.
`none` models the panics of the source (out-of-bounds `data` access when the
range reaches bit 32, and the final length assertion when `lo > hi + 1`). -/
def BinaryInstruction.get (inst : BinaryInstruction) (lo hi : Nat) : Option (List Nat) :=
  if lo ≤ hi ∧ 32 ≤ hi then none
  else if hi + 1 < lo then none
  else some ((List.range' lo (hi + 1 - lo)).map (readBit inst.data))

/-- `BinaryInstruction::bits_array(val, count)`: `val` is a `u8`, so the
check `assert_eq!(val >> count, 0)` first computes the shift `val >> count`,
which for `count ≥ 8` overflows the `u8` width and aborts (`none`; a shift
overflow panic in a debug build, and in a release build the masked shift
amount makes the assertion itself fail at `count = 8`, the only width the
recipes could reach).  For `count < 8` the assertion requires
`val >> count == 0`, and the function returns the little-endian bit sequence
of `val`, one 0/1 entry for each `index in 0..count`. -/
def bits_array (val count : Nat) : Option (List Nat) :=
  if 8 ≤ count then none
  else if val >>> count = 0 then
    some ((List.range count).map fun index => if val &&& (1 <<< index) > 0 then 1 else 0)
  else none

def BinaryInstruction.set_opcode (inst : BinaryInstruction) (opcode : Nat) :
    Option BinaryInstruction :=
  (bits_array opcode 7).bind fun bits => inst.set 0 6 bits

def BinaryInstruction.set_rd (inst : BinaryInstruction) (rd : String) :
    Option BinaryInstruction :=
  (reg_name2value rd).bind fun v =>
    (bits_array v 5).bind fun bits => inst.set 7 11 bits

def BinaryInstruction.set_funct3 (inst : BinaryInstruction) (funct3 : Nat) :
    Option BinaryInstruction :=
  (bits_array funct3 3).bind fun bits => inst.set 12 14 bits

def BinaryInstruction.set_rs1 (inst : BinaryInstruction) (rs1 : String) :
    Option BinaryInstruction :=
  (reg_name2value rs1).bind fun v =>
    (bits_array v 5).bind fun bits => inst.set 15 19 bits

def BinaryInstruction.set_rs2 (inst : BinaryInstruction) (rs2 : String) :
    Option BinaryInstruction :=
  (reg_name2value rs2).bind fun v =>
    (bits_array v 5).bind fun bits => inst.set 20 24 bits

/-- `set_shamt`: a 6-bit write into bits 20–25, recording `flag_shamt`. -/
def BinaryInstruction.set_shamt (inst : BinaryInstruction) (shamt : Nat) :
    Option BinaryInstruction :=
  (bits_array shamt 6).bind fun bits =>
    (inst.set 20 25 bits).map fun i => { i with flag_shamt := true }

/-- `set_funct6`: a 6-bit write into bits 26–31, recording `flag_funct6`. -/
def BinaryInstruction.set_funct6 (inst : BinaryInstruction) (funct6 : Nat) :
    Option BinaryInstruction :=
  (bits_array funct6 6).bind fun bits =>
    (inst.set 26 31 bits).map fun i => { i with flag_funct6 := true }

def BinaryInstruction.set_funct7 (inst : BinaryInstruction) (funct7 : Nat) :
    Option BinaryInstruction :=
  (bits_array funct7 7).bind fun bits => inst.set 25 31 bits

/-- `set_operands`: asserts exactly 3 operands, then fills rd, rs1, rs2. -/
def BinaryInstruction.set_operands (inst : BinaryInstruction) (operands : List String) :
    Option BinaryInstruction :=
  if operands.length = 3 then
    (inst.set_rd (operands.getD 0 "")).bind fun i1 =>
      (i1.set_rs1 (operands.getD 1 "")).bind fun i2 =>
        i2.set_rs2 (operands.getD 2 "")
  else none

/-- `set_2operands`: asserts exactly 2 operands, fills rd and rs1, and writes
the literal constant `rs2` into bits 20–24. -/
def BinaryInstruction.set_2operands (inst : BinaryInstruction) (operands : List String)
    (rs2 : Nat) : Option BinaryInstruction :=
  if operands.length = 2 then
    (inst.set_rd (operands.getD 0 "")).bind fun i1 =>
      (i1.set_rs1 (operands.getD 1 "")).bind fun i2 =>
        (bits_array rs2 5).bind fun bits => i2.set 20 24 bits
  else none

/-- `set_immediate`: indexes `operands[0]`, `operands[1]`, `operands[2]`
directly (a panic — `none` — if an index is out of bounds; no length
assertion), parses the third operand as a decimal `u8`, and writes it through
`set_shamt`. -/
def BinaryInstruction.set_immediate (inst : BinaryInstruction) (operands : List String) :
    Option BinaryInstruction :=
  (operands.get? 0).bind fun s0 =>
    (inst.set_rd s0).bind fun i1 =>
      (operands.get? 1).bind fun s1 =>
        (i1.set_rs1 s1).bind fun i2 =>
          (operands.get? 2).bind fun s2 =>
            (parseU8 s2).bind fun shamt => i2.set_shamt shamt

/-- The `Display` impl for `BinaryInstruction`: panics (`none`) when exactly
one of `flag_shamt`, `flag_funct6` is set, otherwise renders the `.byte`
directive with the 4 bytes least-significant first. -/
def BinaryInstruction.render (inst : BinaryInstruction) : Option String :=
  if inst.flag_shamt then
    if !inst.flag_funct6 then none
    else some (".byte 0x" ++ hex2 (inst.data 0) ++ ",0x" ++ hex2 (inst.data 1) ++
      ",0x" ++ hex2 (inst.data 2) ++ ",0x" ++ hex2 (inst.data 3))
  else
    if inst.flag_funct6 then none
    else some (".byte 0x" ++ hex2 (inst.data 0) ++ ",0x" ++ hex2 (inst.data 1) ++
      ",0x" ++ hex2 (inst.data 2) ++ ",0x" ++ hex2 (inst.data 3))

/-! ## `TextInstruction` -/

structure TextInstruction where
  opcode : String
  operands : List String
  raw : Option String

def TextInstruction.new : TextInstruction :=
  { opcode := "", operands := [], raw := none }

/-- The `Display` impl for `TextInstruction`:
`format!("{} {}", opcode, operands.join(","))`. -/
def TextInstruction.render (t : TextInstruction) : String :=
  t.opcode ++ " " ++ joinWith "," t.operands

/-- The common shape of the R-type arms of `convert`: opcode, funct3, funct7,
then `set_operands` (3 register operands). -/
def convertR (o f3 f7 : Nat) (operands : List String) : Option BinaryInstruction :=
  (BinaryInstruction.new.set_opcode o).bind fun i1 =>
    (i1.set_funct3 f3).bind fun i2 =>
      (i2.set_funct7 f7).bind fun i3 => i3.set_operands operands

/-- The common shape of the two-operand arms of `convert`: opcode, funct3,
funct7, then `set_2operands` with a fixed constant in the rs2 slot. -/
def convertUnary (o f3 f7 c : Nat) (operands : List String) : Option BinaryInstruction :=
  (BinaryInstruction.new.set_opcode o).bind fun i1 =>
    (i1.set_funct3 f3).bind fun i2 =>
      (i2.set_funct7 f7).bind fun i3 => i3.set_2operands operands c

/-- The common shape of the immediate-shift arms of `convert`: opcode, funct3,
funct6, then `set_immediate` (shift amount into the 6-bit shamt field). -/
def convertShift (o f3 f6 : Nat) (operands : List String) : Option BinaryInstruction :=
  (BinaryInstruction.new.set_opcode o).bind fun i1 =>
    (i1.set_funct3 f3).bind fun i2 =>
      (i2.set_funct6 f6).bind fun i3 => i3.set_immediate operands

/-- The `roriw` arm of `convert`: opcode, funct3, funct7, then the shift
amount is `operands[2]` parsed as a decimal `u8`, the last operand is popped,
and the remaining two registers go through `set_2operands` with the shift
amount as the rs2-slot constant. -/
def convertRoriw (operands : List String) : Option BinaryInstruction :=
  (BinaryInstruction.new.set_opcode 0b0011011).bind fun i1 =>
    (i1.set_funct3 0b101).bind fun i2 =>
      (i2.set_funct7 0b0110000).bind fun i3 =>
        (operands.get? 2).bind fun s2 =>
          (parseU8 s2).bind fun shamt =>
            i3.set_2operands operands.dropLast shamt

/-- `TextInstruction::convert`: exact-match dispatch on the opcode string;
each arm applies the fixed field constants of the source, and the default arm
returns `None`.  The `roriw` arm parses `operands[2]` as a `u8`, pops the last
operand, and encodes through `set_2operands` with the shift amount as the
rs2-slot constant. -/
def TextInstruction.convert (t : TextInstruction) : Option BinaryInstruction :=
  if t.opcode = "add.uw" then convertR 0b0111011 0 0b0000100 t.operands
  else if t.opcode = "andn" then convertR 0b0110011 0b111 0b0100000 t.operands
  else if t.opcode = "bclr" then convertR 0b0110011 0b001 0b0100100 t.operands
  else if t.opcode = "bclri" then convertShift 0b0010011 0b001 0b010010 t.operands
  else if t.opcode = "bext" then convertR 0b0110011 0b101 0b0100100 t.operands
  else if t.opcode = "bexti" then convertShift 0b0010011 0b101 0b010010 t.operands
  else if t.opcode = "binv" then convertR 0b0110011 0b001 0b0110100 t.operands
  else if t.opcode = "binvi" then convertShift 0b0010011 0b001 0b011010 t.operands
  else if t.opcode = "bset" then convertR 0b0110011 0b001 0b0010100 t.operands
  else if t.opcode = "bseti" then convertShift 0b0010011 0b001 0b001010 t.operands
  else if t.opcode = "clmul" then convertR 0b0110011 0b001 0b0000101 t.operands
  else if t.opcode = "clmulh" then convertR 0b0110011 0b011 0b0000101 t.operands
  else if t.opcode = "clmulr" then convertR 0b0110011 0b010 0b0000101 t.operands
  else if t.opcode = "clz" then convertUnary 0b0010011 0b001 0b0110000 0 t.operands
  else if t.opcode = "clzw" then convertUnary 0b0011011 0b001 0b0110000 0 t.operands
  else if t.opcode = "cpop" then convertUnary 0b0010011 0b001 0b0110000 0b00010 t.operands
  else if t.opcode = "cpopw" then convertUnary 0b0011011 0b001 0b0110000 0b00010 t.operands
  else if t.opcode = "ctz" then convertUnary 0b0010011 0b001 0b0110000 0b00001 t.operands
  else if t.opcode = "ctzw" then convertUnary 0b0011011 0b001 0b0110000 0b00001 t.operands
  else if t.opcode = "max" then convertR 0b0110011 0b110 0b0000101 t.operands
  else if t.opcode = "maxu" then convertR 0b0110011 0b111 0b0000101 t.operands
  else if t.opcode = "min" then convertR 0b0110011 0b100 0b0000101 t.operands
  else if t.opcode = "minu" then convertR 0b0110011 0b101 0b0000101 t.operands
  else if t.opcode = "orc.b" then convertUnary 0b0010011 0b101 0b0010100 0b00111 t.operands
  else if t.opcode = "orn" then convertR 0b0110011 0b110 0b0100000 t.operands
  else if t.opcode = "rev8" then convertUnary 0b0010011 0b101 0b0110101 0b11000 t.operands
  else if t.opcode = "rol" then convertR 0b0110011 0b001 0b0110000 t.operands
  else if t.opcode = "rolw" then convertR 0b0111011 0b001 0b0110000 t.operands
  else if t.opcode = "ror" then convertR 0b110011 0b101 0b0110000 t.operands
  else if t.opcode = "rori" then convertShift 0b0010011 0b101 0b011000 t.operands
  else if t.opcode = "roriw" then convertRoriw t.operands
  else if t.opcode = "rorw" then convertR 0b0111011 0b101 0b0110000 t.operands
  else if t.opcode = "sext.b" then convertUnary 0b0010011 0b001 0b0110000 0b00100 t.operands
  else if t.opcode = "sext.h" then convertUnary 0b0010011 0b001 0b0110000 0b00101 t.operands
  else if t.opcode = "sh1add" then convertR 0b0110011 0b010 0b0010000 t.operands
  else if t.opcode = "sh1add.uw" then convertR 0b0111011 0b010 0b0010000 t.operands
  else if t.opcode = "sh2add" then convertR 0b0110011 0b100 0b0010000 t.operands
  else if t.opcode = "sh2add.uw" then convertR 0b0111011 0b100 0b0010000 t.operands
  else if t.opcode = "sh3add" then convertR 0b0110011 0b110 0b0010000 t.operands
  else if t.opcode = "sh3add.uw" then convertR 0b0111011 0b110 0b0010000 t.operands
  else if t.opcode = "slli.uw" then convertShift 0b0011011 0b001 0b000010 t.operands
  else if t.opcode = "xnor" then convertR 0b0110011 0b100 0b0100000 t.operands
  else if t.opcode = "zext.h" then convertUnary 0b0111011 0b100 0b0000100 0b00000 t.operands
  else none

/-- `parse_line`: splits on the space character; with at least 2 fields the
first field is the opcode and the comma-separated, trimmed, non-empty pieces
of the rest of the line are the operands; otherwise the whole line is stored
as raw passthrough. -/
def parse_line (line : String) : TextInstruction :=
  let fields := splitChars ' ' line.data
  if fields.length ≥ 2 then
    { opcode := ⟨fields.headD []⟩
      operands := (((splitChars ',' (joinChars ' ' fields.tail)).map trimChars).filter
        (fun r => r.length > 0)).map fun cs => (⟨cs⟩ : String)
      raw := none }
  else
    { TextInstruction.new with raw := some line }

/-! ## Mnemonic classification used by the claims -/

/-- All opcode strings matched by `convert` (every non-default arm). -/
def supportedMnemonics : List String :=
  ["add.uw", "andn", "bclr", "bclri", "bext", "bexti", "binv", "binvi", "bset",
   "bseti", "clmul", "clmulh", "clmulr", "clz", "clzw", "cpop", "cpopw", "ctz",
   "ctzw", "max", "maxu", "min", "minu", "orc.b", "orn", "rev8", "rol", "rolw",
   "ror", "rori", "roriw", "rorw", "sext.b", "sext.h", "sh1add", "sh1add.uw",
   "sh2add", "sh2add.uw", "sh3add", "sh3add.uw", "slli.uw", "xnor", "zext.h"]

/-- The arms encoded through `set_operands` (3 register operands). -/
def rTypeMnemonics : List String :=
  ["add.uw", "andn", "bclr", "bext", "binv", "bset", "clmul", "clmulh",
   "clmulr", "max", "maxu", "min", "minu", "orn", "rol", "rolw", "ror", "rorw",
   "sh1add", "sh1add.uw", "sh2add", "sh2add.uw", "sh3add", "sh3add.uw", "xnor"]

/-- The arms encoded through `set_2operands` with a fixed rs2-slot constant. -/
def unaryMnemonics : List String :=
  ["clz", "clzw", "cpop", "cpopw", "ctz", "ctzw", "sext.b", "sext.h", "orc.b",
   "rev8", "zext.h"]

/-- The arms encoded through `set_immediate` (funct6 + shamt layout). -/
def shiftImmMnemonics : List String :=
  ["bclri", "bexti", "binvi", "bseti", "rori", "slli.uw"]

/-- The fixed constant each two-operand arm writes into the rs2 slot
(bits 20–24), read off the `set_2operands` calls in the source. -/
def unaryRs2Const (m : String) : Nat :=
  if m = "clz" then 0
  else if m = "clzw" then 0
  else if m = "cpop" then 2
  else if m = "cpopw" then 2
  else if m = "ctz" then 1
  else if m = "ctzw" then 1
  else if m = "sext.b" then 4
  else if m = "sext.h" then 5
  else if m = "orc.b" then 7
  else if m = "rev8" then 0x18
  else 0

/-- Stated from the spec's words for claim C9 only: the whitespace-separated
tokens of a line (split on any whitespace, empty tokens discarded), to be
compared with the source's space-splitting criterion in `parse_line`. -/
def whitespaceTokens (line : String) : List String :=
  ((line.data.splitOnP Char.isWhitespace).filter (fun t => t ≠ [])).map
    fun cs => (⟨cs⟩ : String)

/-- The little-endian value of a bit sequence: `bits[0]` is the least
significant bit, so the value is the sum over `i` of `bits[i] * 2 ^ i`. -/
def recon : List Nat → Nat
  | [] => 0
  | b :: rest => b + 2 * recon rest



/-! ## Bit-level lemmas about `readBit`, `writeBit`, `setBits` -/

lemma byteAt_update (data : Fin 4 → Nat) (a : Fin 4) (v : Nat) (i : Nat) :
    byteAt (Function.update data a v) i = if i = a.val then v else byteAt data i := by
  unfold byteAt
  by_cases hi : i < 4
  · rw [dif_pos hi, dif_pos hi, Function.update_apply]
    by_cases he : (⟨i, hi⟩ : Fin 4) = a
    · rw [if_pos he, if_pos (congrArg Fin.val he)]
    · rw [if_neg he, if_neg fun hv => he (Fin.ext hv)]
  · rw [dif_neg hi, dif_neg hi, if_neg (by have := a.isLt; omega)]

lemma readBit_eq (data : Fin 4 → Nat) {j : Nat} (h : j < 32) :
    readBit data j = ((byteAt data (j / 8)).testBit (j % 8)).toNat := by
  simp only [readBit, if_pos h, gt_iff_lt]
  rw [Nat.one_shiftLeft, Nat.and_two_pow]
  cases htb : (byteAt data (j / 8)).testBit (j % 8) <;>
    simp [htb, Nat.pos_pow_of_pos]

lemma writeBit_spec {data : Fin 4 → Nat} {index b : Nat} {d' : Fin 4 → Nat}
    (h : writeBit data index b = some d') :
    index < 32 ∧ (b = 0 ∨ b = 1) ∧
      ∀ j, j < 32 → readBit d' j = if j = index then b else readBit data j := by
  unfold writeBit at h
  split at h
  case isFalse => exact absurd h (by simp)
  case isTrue hb =>
    split at h
    case isFalse => exact absurd h (by simp)
    case isTrue hidx =>
      refine ⟨hidx, hb, fun j hj => ?_⟩
      have hd' := (Option.some.inj h).symm
      rw [readBit_eq _ hj, readBit_eq _ hj, hd', byteAt_update]
      have h255 : Nat.testBit 255 (j % 8) = true := by
        rw [show (255 : Nat) = 2 ^ 8 - 1 by norm_num, Nat.testBit_two_pow_sub_one]
        exact decide_eq_true (Nat.mod_lt j (by norm_num : 0 < 8))
      by_cases hdiv : j / 8 = index / 8
      · rw [if_pos hdiv]
        by_cases hji : j = index
        · subst hji
          rcases hb with hb | hb <;> subst hb
          · simp [Nat.one_shiftLeft, Nat.testBit_and, Nat.testBit_xor,
              h255, Nat.testBit_two_pow_self]
          · simp [Nat.one_shiftLeft, Nat.testBit_or, Nat.testBit_two_pow]
        · have hbit : index % 8 ≠ j % 8 := by omega
          rw [if_neg hji, hdiv]
          rcases hb with hb | hb <;> subst hb
          · simp [Nat.one_shiftLeft, Nat.testBit_and, Nat.testBit_xor,
              h255, Nat.testBit_two_pow, hbit]
          · simp [Nat.one_shiftLeft, Nat.testBit_or, Nat.testBit_two_pow, hbit]
      · have hji : j ≠ index := fun hc => hdiv (by rw [hc])
        rw [if_neg hdiv, if_neg hji]

lemma setBits_readBit {bits : List Nat} {data : Fin 4 → Nat} {start : Nat}
    {d' : Fin 4 → Nat} (h : setBits data start bits = some d') :
    ∀ j, j < 32 →
      readBit d' j =
        if start ≤ j ∧ j - start < bits.length then bits.getD (j - start) 0
        else readBit data j := by
  induction bits generalizing data start with
  | nil =>
    intro j hj
    simp only [setBits, Option.some.injEq] at h
    subst h
    simp only [List.length_nil]
    rw [if_neg (by omega)]
  | cons b rest ih =>
    intro j hj
    simp only [setBits, Option.bind_eq_bind, Option.bind_eq_some] at h
    obtain ⟨d1, hw, hr⟩ := h
    obtain ⟨-, -, hpt⟩ := writeBit_spec hw
    rw [ih hr j hj, hpt j hj]
    simp only [List.length_cons]
    by_cases hcase : start + 1 ≤ j ∧ j - (start + 1) < rest.length
    · have hcond : start ≤ j ∧ j - start < rest.length + 1 := ⟨by omega, by omega⟩
      rw [if_pos hcase, if_pos hcond]
      have hsucc : j - start = (j - (start + 1)) + 1 := by omega
      rw [hsucc, List.getD_cons_succ]
    · rw [if_neg hcase]
      by_cases hji : j = start
      · subst hji
        rw [if_pos rfl, if_pos ⟨le_refl _, by omega⟩]
        simp
      · have hnc : ¬(start ≤ j ∧ j - start < rest.length + 1) := by omega
        rw [if_neg hji, if_neg hnc]

lemma setBits_isSome {bits : List Nat} {data : Fin 4 → Nat} {start : Nat}
    (hvalid : ∀ b ∈ bits, b = 0 ∨ b = 1) (hbound : start + bits.length ≤ 32) :
    ∃ d', setBits data start bits = some d' := by
  induction bits generalizing data start with
  | nil => exact ⟨data, rfl⟩
  | cons b rest ih =>
    simp only [List.length_cons] at hbound
    have hb : b = 0 ∨ b = 1 := hvalid b (by simp)
    have hw : ∃ d1, writeBit data start b = some d1 := by
      unfold writeBit
      rw [if_pos hb, dif_pos (by omega)]
      exact ⟨_, rfl⟩
    obtain ⟨d1, hd1⟩ := hw
    obtain ⟨d', hd'⟩ := @ih d1 (start + 1)
      (fun x hx => hvalid x (by simp [hx])) (by omega)
    refine ⟨d', ?_⟩
    simp only [setBits, Option.bind_eq_bind, hd1, Option.some_bind]
    exact hd'

/-! ## Lemmas about `bits_array`, `set`, `get` -/

lemma bits_array_spec {val count : Nat} {l : List Nat} (h : bits_array val count = some l) :
    l.length = count ∧ ∀ b ∈ l, b = 0 ∨ b = 1 := by
  unfold bits_array at h
  split at h
  case isTrue => exact absurd h (by simp)
  case isFalse =>
    split at h
    case isFalse => exact absurd h (by simp)
    case isTrue =>
      have hl := (Option.some.inj h).symm
      subst hl
      refine ⟨by simp, fun b hb => ?_⟩
      simp only [List.mem_map] at hb
      obtain ⟨i, -, hi⟩ := hb
      split at hi <;> omega

lemma bits_array_eq_none {val count : Nat} (h : 2 ^ count ≤ val) :
    bits_array val count = none := by
  unfold bits_array
  split
  case isTrue => rfl
  case isFalse =>
    rw [if_neg]
    rw [Nat.shiftRight_eq_div_pow]
    have h2 := Nat.pos_pow_of_pos count (show 0 < 2 by norm_num)
    exact fun hc => absurd (Nat.div_eq_zero_iff h2 |>.mp hc) (by omega)

lemma bits_array_isSome {val count : Nat} (hc : count < 8) (h : val < 2 ^ count) :
    ∃ l, bits_array val count = some l := by
  unfold bits_array
  rw [if_neg (by omega), if_pos]
  · exact ⟨_, rfl⟩
  · rw [Nat.shiftRight_eq_div_pow]
    exact Nat.div_eq_zero_iff (Nat.pos_pow_of_pos count (by norm_num)) |>.mpr h

lemma set_spec {inst i' : BinaryInstruction} {lo hi : Nat} {bits : List Nat}
    (h : inst.set lo hi bits = some i') :
    bits.length = hi + 1 - lo ∧ lo ≤ hi + 1 ∧
      i'.flag_shamt = inst.flag_shamt ∧ i'.flag_funct6 = inst.flag_funct6 ∧
      ∀ j, j < 32 →
        readBit i'.data j =
          if lo ≤ j ∧ j - lo < bits.length then bits.getD (j - lo) 0
          else readBit inst.data j := by
  unfold BinaryInstruction.set at h
  split at h
  case isFalse => exact absurd h (by simp)
  case isTrue hlen =>
    simp only [Option.map_eq_some'] at h
    obtain ⟨d, hd, hi'⟩ := h
    subst hi'
    exact ⟨by omega, by omega, rfl, rfl, setBits_readBit hd⟩

lemma set_isSome {inst : BinaryInstruction} {lo hi : Nat} {bits : List Nat}
    (hlo : lo ≤ hi) (hhi : hi < 32) (hlen : bits.length = hi - lo + 1)
    (hvalid : ∀ b ∈ bits, b = 0 ∨ b = 1) :
    ∃ i', inst.set lo hi bits = some i' := by
  unfold BinaryInstruction.set
  rw [if_pos (by omega)]
  obtain ⟨d, hd⟩ := @setBits_isSome bits inst.data lo hvalid (by omega)
  exact ⟨_, by rw [hd]; rfl⟩

lemma get_eq_map {inst : BinaryInstruction} {lo hi : Nat} (hlo : lo ≤ hi + 1)
    (hhi : hi < 32) :
    inst.get lo hi = some ((List.range' lo (hi + 1 - lo)).map (readBit inst.data)) := by
  unfold BinaryInstruction.get
  rw [if_neg (by omega), if_neg (by omega)]

lemma get_after_set {inst i' : BinaryInstruction} {lo hi : Nat} {bits : List Nat}
    (h : inst.set lo hi bits = some i') (hhi : hi < 32) :
    i'.get lo hi = some bits := by
  obtain ⟨hlen, hle, -, -, hpt⟩ := set_spec h
  rw [get_eq_map hle hhi]
  congr 1
  apply List.ext_getElem
  · simp [hlen]
  · intro n h1 h2
    simp only [List.getElem_map, List.getElem_range']
    rw [hpt (lo + 1 * n) (by simp at h1; omega)]
    rw [if_pos ⟨by omega, by simp at h1; omega⟩]
    rw [List.getD_eq_getElem?_getD, show lo + 1 * n - lo = n by omega,
      List.getElem?_eq_getElem h2]
    rfl

lemma get_congr {d1 d2 : BinaryInstruction} (lo hi : Nat)
    (h : ∀ j, lo ≤ j → j ≤ hi → j < 32 → readBit d1.data j = readBit d2.data j) :
    d1.get lo hi = d2.get lo hi := by
  unfold BinaryInstruction.get
  by_cases h1 : lo ≤ hi ∧ 32 ≤ hi
  · rw [if_pos h1, if_pos h1]
  · rw [if_neg h1, if_neg h1]
    by_cases h2 : hi + 1 < lo
    · rw [if_pos h2, if_pos h2]
    · rw [if_neg h2, if_neg h2]
      congr 1
      apply List.map_congr_left
      intro j hj
      rw [List.mem_range'] at hj
      obtain ⟨i, hilt, hji⟩ := hj
      exact h j (by omega) (by omega) (by omega)

lemma get_frame {inst i' : BinaryInstruction} {lo hi lo2 hi2 : Nat} {bits : List Nat}
    (h : inst.set lo hi bits = some i') (hd : hi2 < lo ∨ hi < lo2) :
    i'.get lo2 hi2 = inst.get lo2 hi2 := by
  obtain ⟨hlen, hle, -, -, hpt⟩ := set_spec h
  apply get_congr
  intro j hj1 hj2 hj3
  rw [hpt j hj3, if_neg (by omega)]

/-! ## Lemmas about the named field setters -/

lemma set_opcode_spec {inst i' : BinaryInstruction} {o : Nat}
    (h : inst.set_opcode o = some i') :
    i'.flag_shamt = inst.flag_shamt ∧ i'.flag_funct6 = inst.flag_funct6 ∧
      i'.get 0 6 = bits_array o 7 ∧
      ∀ j, j < 32 → 6 < j → readBit i'.data j = readBit inst.data j := by
  unfold BinaryInstruction.set_opcode at h
  rw [Option.bind_eq_some] at h
  obtain ⟨bits, hba, hset⟩ := h
  obtain ⟨hlen, -, hfs, hff, hpt⟩ := set_spec hset
  exact ⟨hfs, hff, by rw [get_after_set hset (by norm_num), hba],
    fun j hj hgt => by rw [hpt j hj, if_neg (by omega)]⟩

lemma set_funct3_spec {inst i' : BinaryInstruction} {f : Nat}
    (h : inst.set_funct3 f = some i') :
    i'.flag_shamt = inst.flag_shamt ∧ i'.flag_funct6 = inst.flag_funct6 ∧
      i'.get 12 14 = bits_array f 3 ∧
      ∀ j, j < 32 → j < 12 ∨ 14 < j → readBit i'.data j = readBit inst.data j := by
  unfold BinaryInstruction.set_funct3 at h
  rw [Option.bind_eq_some] at h
  obtain ⟨bits, hba, hset⟩ := h
  obtain ⟨hlen, -, hfs, hff, hpt⟩ := set_spec hset
  exact ⟨hfs, hff, by rw [get_after_set hset (by norm_num), hba],
    fun j hj hgt => by rw [hpt j hj, if_neg (by omega)]⟩

lemma set_funct7_spec {inst i' : BinaryInstruction} {f : Nat}
    (h : inst.set_funct7 f = some i') :
    i'.flag_shamt = inst.flag_shamt ∧ i'.flag_funct6 = inst.flag_funct6 ∧
      i'.get 25 31 = bits_array f 7 ∧
      ∀ j, j < 32 → j < 25 → readBit i'.data j = readBit inst.data j := by
  unfold BinaryInstruction.set_funct7 at h
  rw [Option.bind_eq_some] at h
  obtain ⟨bits, hba, hset⟩ := h
  obtain ⟨hlen, -, hfs, hff, hpt⟩ := set_spec hset
  exact ⟨hfs, hff, by rw [get_after_set hset (by norm_num), hba],
    fun j hj hgt => by rw [hpt j hj, if_neg (by omega)]⟩

lemma set_funct6_spec {inst i' : BinaryInstruction} {f : Nat}
    (h : inst.set_funct6 f = some i') :
    i'.flag_shamt = inst.flag_shamt ∧ i'.flag_funct6 = true ∧
      i'.get 26 31 = bits_array f 6 ∧
      ∀ j, j < 32 → j < 26 → readBit i'.data j = readBit inst.data j := by
  unfold BinaryInstruction.set_funct6 at h
  rw [Option.bind_eq_some] at h
  obtain ⟨bits, hba, h2⟩ := h
  rw [Option.map_eq_some'] at h2
  obtain ⟨i0, hset, hi'⟩ := h2
  obtain ⟨hlen, -, hfs, hff, hpt⟩ := set_spec hset
  subst hi'
  refine ⟨hfs, rfl, ?_, fun j hj hgt => by rw [show readBit i0.data j = readBit inst.data j
    from by rw [hpt j hj, if_neg (by omega)]]⟩
  show i0.get 26 31 = bits_array f 6
  rw [get_after_set hset (by norm_num), hba]

lemma set_shamt_spec {inst i' : BinaryInstruction} {s : Nat}
    (h : inst.set_shamt s = some i') :
    i'.flag_shamt = true ∧ i'.flag_funct6 = inst.flag_funct6 ∧
      i'.get 20 25 = bits_array s 6 ∧
      ∀ j, j < 32 → j < 20 ∨ 25 < j → readBit i'.data j = readBit inst.data j := by
  unfold BinaryInstruction.set_shamt at h
  rw [Option.bind_eq_some] at h
  obtain ⟨bits, hba, h2⟩ := h
  rw [Option.map_eq_some'] at h2
  obtain ⟨i0, hset, hi'⟩ := h2
  obtain ⟨hlen, -, hfs, hff, hpt⟩ := set_spec hset
  subst hi'
  refine ⟨rfl, hff, ?_, fun j hj hgt => by rw [show readBit i0.data j = readBit inst.data j
    from by rw [hpt j hj, if_neg (by omega)]]⟩
  show i0.get 20 25 = bits_array s 6
  rw [get_after_set hset (by norm_num), hba]

lemma set_shamt_none {inst : BinaryInstruction} {s : Nat} (h : 63 < s) :
    inst.set_shamt s = none := by
  unfold BinaryInstruction.set_shamt
  rw [bits_array_eq_none (by norm_num; omega)]
  rfl

lemma set_rd_spec {inst i' : BinaryInstruction} {rd : String}
    (h : inst.set_rd rd = some i') :
    i'.flag_shamt = inst.flag_shamt ∧ i'.flag_funct6 = inst.flag_funct6 ∧
      ∀ j, j < 32 → j < 7 ∨ 11 < j → readBit i'.data j = readBit inst.data j := by
  unfold BinaryInstruction.set_rd at h
  rw [Option.bind_eq_some] at h
  obtain ⟨v, hv, h⟩ := h
  rw [Option.bind_eq_some] at h
  obtain ⟨bits, hba, hset⟩ := h
  obtain ⟨hlen, -, hfs, hff, hpt⟩ := set_spec hset
  exact ⟨hfs, hff, fun j hj hgt => by rw [hpt j hj, if_neg (by omega)]⟩

lemma set_rs1_spec {inst i' : BinaryInstruction} {rs1 : String}
    (h : inst.set_rs1 rs1 = some i') :
    i'.flag_shamt = inst.flag_shamt ∧ i'.flag_funct6 = inst.flag_funct6 ∧
      ∀ j, j < 32 → j < 15 ∨ 19 < j → readBit i'.data j = readBit inst.data j := by
  unfold BinaryInstruction.set_rs1 at h
  rw [Option.bind_eq_some] at h
  obtain ⟨v, hv, h⟩ := h
  rw [Option.bind_eq_some] at h
  obtain ⟨bits, hba, hset⟩ := h
  obtain ⟨hlen, -, hfs, hff, hpt⟩ := set_spec hset
  exact ⟨hfs, hff, fun j hj hgt => by rw [hpt j hj, if_neg (by omega)]⟩

lemma set_rs2_spec {inst i' : BinaryInstruction} {rs2 : String}
    (h : inst.set_rs2 rs2 = some i') :
    i'.flag_shamt = inst.flag_shamt ∧ i'.flag_funct6 = inst.flag_funct6 := by
  unfold BinaryInstruction.set_rs2 at h
  rw [Option.bind_eq_some] at h
  obtain ⟨v, hv, h⟩ := h
  rw [Option.bind_eq_some] at h
  obtain ⟨bits, hba, hset⟩ := h
  obtain ⟨-, -, hfs, hff, -⟩ := set_spec hset
  exact ⟨hfs, hff⟩

lemma set_operands_spec {inst i' : BinaryInstruction} {ops : List String}
    (h : inst.set_operands ops = some i') :
    ops.length = 3 ∧ i'.flag_shamt = inst.flag_shamt ∧
      i'.flag_funct6 = inst.flag_funct6 := by
  unfold BinaryInstruction.set_operands at h
  split at h
  case isFalse => exact absurd h (by simp)
  case isTrue hlen =>
    rw [Option.bind_eq_some] at h
    obtain ⟨i1, h1, h⟩ := h
    rw [Option.bind_eq_some] at h
    obtain ⟨i2, h2, h3⟩ := h
    obtain ⟨ha, hb, -⟩ := set_rd_spec h1
    obtain ⟨hc, hd, -⟩ := set_rs1_spec h2
    obtain ⟨he, hf⟩ := set_rs2_spec h3
    exact ⟨hlen, by rw [he, hc, ha], by rw [hf, hd, hb]⟩

lemma set_2operands_spec {inst i' : BinaryInstruction} {ops : List String} {c : Nat}
    (h : inst.set_2operands ops c = some i') :
    ops.length = 2 ∧ i'.flag_shamt = inst.flag_shamt ∧
      i'.flag_funct6 = inst.flag_funct6 ∧
      i'.get 20 24 = bits_array c 5 ∧
      ∀ j, j < 32 → j < 7 ∨ (11 < j ∧ j < 15) ∨ 24 < j →
        readBit i'.data j = readBit inst.data j := by
  unfold BinaryInstruction.set_2operands at h
  split at h
  case isFalse => exact absurd h (by simp)
  case isTrue hlen =>
    rw [Option.bind_eq_some] at h
    obtain ⟨i1, h1, h⟩ := h
    rw [Option.bind_eq_some] at h
    obtain ⟨i2, h2, h⟩ := h
    rw [Option.bind_eq_some] at h
    obtain ⟨bits, hba, hset⟩ := h
    obtain ⟨ha, hb, hpt1⟩ := set_rd_spec h1
    obtain ⟨hc, hd, hpt2⟩ := set_rs1_spec h2
    obtain ⟨hblen, -, he, hf, hpt3⟩ := set_spec hset
    refine ⟨hlen, by rw [he, hc, ha], by rw [hf, hd, hb],
      by rw [get_after_set hset (by norm_num), hba], fun j hj hcond => ?_⟩
    rw [hpt3 j hj, if_neg (by omega), hpt2 j hj (by omega), hpt1 j hj (by omega)]

lemma set_2operands_none {inst : BinaryInstruction} {ops : List String} {c : Nat}
    (h : 31 < c) : inst.set_2operands ops c = none := by
  unfold BinaryInstruction.set_2operands
  split
  case isFalse => rfl
  case isTrue =>
    cases e1 : inst.set_rd (ops.getD 0 "") with
    | none => rfl
    | some i1 =>
      simp only [Option.some_bind]
      cases e2 : i1.set_rs1 (ops.getD 1 "") with
      | none => rfl
      | some i2 =>
        simp only [Option.some_bind]
        rw [bits_array_eq_none (by norm_num; omega)]
        rfl

lemma set_immediate_spec {inst i' : BinaryInstruction} {ops : List String}
    (h : inst.set_immediate ops = some i') :
    3 ≤ ops.length ∧ i'.flag_shamt = true ∧ i'.flag_funct6 = inst.flag_funct6 ∧
      ∃ str shamt, ops.get? 2 = some str ∧ parseU8 str = some shamt ∧
        i'.get 20 25 = bits_array shamt 6 := by
  unfold BinaryInstruction.set_immediate at h
  rw [Option.bind_eq_some] at h
  obtain ⟨s0, hs0, h⟩ := h
  rw [Option.bind_eq_some] at h
  obtain ⟨i1, h1, h⟩ := h
  rw [Option.bind_eq_some] at h
  obtain ⟨s1, hs1, h⟩ := h
  rw [Option.bind_eq_some] at h
  obtain ⟨i2, h2, h⟩ := h
  rw [Option.bind_eq_some] at h
  obtain ⟨s2, hs2, h⟩ := h
  rw [Option.bind_eq_some] at h
  obtain ⟨shamt, hp, hsh⟩ := h
  obtain ⟨ha, hb, -⟩ := set_rd_spec h1
  obtain ⟨hc, hd, -⟩ := set_rs1_spec h2
  obtain ⟨he, hf, hg, -⟩ := set_shamt_spec hsh
  have hlen : 3 ≤ ops.length := by
    by_contra hcon
    rw [show ops.get? 2 = none from List.get?_eq_none.mpr (by omega)] at hs2
    exact absurd hs2 (by simp)
  exact ⟨hlen, he, by rw [hf, hd, hb], s2, shamt, hs2, hp, hg⟩

lemma set_immediate_none {inst : BinaryInstruction} {ops : List String} {str : String}
    (h2 : ops.get? 2 = some str) (hbig : ∀ n, parseU8 str = some n → 63 < n) :
    inst.set_immediate ops = none := by
  unfold BinaryInstruction.set_immediate
  cases e0 : ops.get? 0 with
  | none => rfl
  | some s0 =>
    simp only [Option.some_bind]
    cases e1 : inst.set_rd s0 with
    | none => rfl
    | some i1 =>
      simp only [Option.some_bind]
      cases e2 : ops.get? 1 with
      | none => rfl
      | some s1 =>
        simp only [Option.some_bind]
        cases e3 : i1.set_rs1 s1 with
        | none => rfl
        | some i2 =>
          simp only [Option.some_bind, h2]
          cases e4 : parseU8 str with
          | none => rfl
          | some n =>
            simp only [Option.some_bind]
            exact set_shamt_none (hbig n e4)

/-! ## Lemmas about the recipe shapes of `convert` -/

lemma convertR_spec {o f3 f7 : Nat} {ops : List String} {b : BinaryInstruction}
    (h : convertR o f3 f7 ops = some b) :
    ops.length = 3 ∧ b.flag_shamt = false ∧ b.flag_funct6 = false := by
  unfold convertR at h
  rw [Option.bind_eq_some] at h
  obtain ⟨i1, h1, h⟩ := h
  rw [Option.bind_eq_some] at h
  obtain ⟨i2, h2, h⟩ := h
  rw [Option.bind_eq_some] at h
  obtain ⟨i3, h3, h⟩ := h
  obtain ⟨hof, hof6, -, -⟩ := set_opcode_spec h1
  obtain ⟨h3f, h3f6, -, -⟩ := set_funct3_spec h2
  obtain ⟨h7f, h7f6, -, -⟩ := set_funct7_spec h3
  obtain ⟨hlen, hbf, hbf6⟩ := set_operands_spec h
  exact ⟨hlen, by rw [hbf, h7f, h3f, hof]; rfl, by rw [hbf6, h7f6, h3f6, hof6]; rfl⟩

lemma convertUnary_spec {o f3 f7 c : Nat} {ops : List String} {b : BinaryInstruction}
    (h : convertUnary o f3 f7 c ops = some b) :
    ops.length = 2 ∧ b.flag_shamt = false ∧ b.flag_funct6 = false ∧
      b.get 20 24 = bits_array c 5 := by
  unfold convertUnary at h
  rw [Option.bind_eq_some] at h
  obtain ⟨i1, h1, h⟩ := h
  rw [Option.bind_eq_some] at h
  obtain ⟨i2, h2, h⟩ := h
  rw [Option.bind_eq_some] at h
  obtain ⟨i3, h3, h⟩ := h
  obtain ⟨hof, hof6, -, -⟩ := set_opcode_spec h1
  obtain ⟨h3f, h3f6, -, -⟩ := set_funct3_spec h2
  obtain ⟨h7f, h7f6, -, -⟩ := set_funct7_spec h3
  obtain ⟨hlen, hbf, hbf6, hbget, -⟩ := set_2operands_spec h
  exact ⟨hlen, by rw [hbf, h7f, h3f, hof]; rfl, by rw [hbf6, h7f6, h3f6, hof6]; rfl, hbget⟩

lemma convertShift_spec {o f3 f6 : Nat} {ops : List String} {b : BinaryInstruction}
    (h : convertShift o f3 f6 ops = some b) :
    3 ≤ ops.length ∧ b.flag_shamt = true ∧ b.flag_funct6 = true := by
  unfold convertShift at h
  rw [Option.bind_eq_some] at h
  obtain ⟨i1, h1, h⟩ := h
  rw [Option.bind_eq_some] at h
  obtain ⟨i2, h2, h⟩ := h
  rw [Option.bind_eq_some] at h
  obtain ⟨i3, h3, h⟩ := h
  obtain ⟨h6s, h6f, -, -⟩ := set_funct6_spec h3
  obtain ⟨hlen, his, hif6, -⟩ := set_immediate_spec h
  exact ⟨hlen, his, by rw [hif6, h6f]⟩

lemma convertShift_none {o f3 f6 : Nat} {ops : List String} {str : String}
    (h2 : ops.get? 2 = some str) (hbig : ∀ n, parseU8 str = some n → 63 < n) :
    convertShift o f3 f6 ops = none := by
  unfold convertShift
  cases e1 : BinaryInstruction.new.set_opcode o with
  | none => rfl
  | some i1 =>
    simp only [Option.some_bind]
    cases e2 : i1.set_funct3 f3 with
    | none => rfl
    | some i2 =>
      simp only [Option.some_bind]
      cases e3 : i2.set_funct6 f6 with
      | none => rfl
      | some i3 =>
        simp only [Option.some_bind]
        exact set_immediate_none h2 hbig

lemma convertRoriw_spec {ops : List String} {b : BinaryInstruction}
    (h : convertRoriw ops = some b) :
    ∃ str shamt, ops.get? 2 = some str ∧ parseU8 str = some shamt ∧
      ops.length = 3 ∧
      b.get 20 24 = bits_array shamt 5 ∧
      b.get 0 6 = bits_array 0b0011011 7 ∧
      b.get 12 14 = bits_array 0b101 3 ∧
      b.get 25 31 = bits_array 0b0110000 7 ∧
      b.flag_shamt = false ∧ b.flag_funct6 = false := by
  unfold convertRoriw at h
  rw [Option.bind_eq_some] at h
  obtain ⟨i1, h1, h⟩ := h
  rw [Option.bind_eq_some] at h
  obtain ⟨i2, h2, h⟩ := h
  rw [Option.bind_eq_some] at h
  obtain ⟨i3, h3, h⟩ := h
  rw [Option.bind_eq_some] at h
  obtain ⟨str, hstr, h⟩ := h
  rw [Option.bind_eq_some] at h
  obtain ⟨shamt, hsh, hfin⟩ := h
  obtain ⟨hof, hof6, hoget, hopt⟩ := set_opcode_spec h1
  obtain ⟨h3f, h3f6, h3get, h3pt⟩ := set_funct3_spec h2
  obtain ⟨h7f, h7f6, h7get, h7pt⟩ := set_funct7_spec h3
  obtain ⟨hdl, hbf, hbf6, hbget, hbpt⟩ := set_2operands_spec hfin
  have hlen3 : ops.length = 3 := by
    have := List.length_dropLast ops
    omega
  have t1 : b.get 0 6 = i3.get 0 6 :=
    get_congr _ _ fun j hj1 hj2 hj3 => hbpt j hj3 (Or.inl (by omega))
  have t2 : i3.get 0 6 = i2.get 0 6 :=
    get_congr _ _ fun j hj1 hj2 hj3 => h7pt j hj3 (by omega)
  have t3 : i2.get 0 6 = i1.get 0 6 :=
    get_congr _ _ fun j hj1 hj2 hj3 => h3pt j hj3 (Or.inl (by omega))
  have u1 : b.get 12 14 = i3.get 12 14 :=
    get_congr _ _ fun j hj1 hj2 hj3 => hbpt j hj3 (Or.inr (Or.inl (by omega)))
  have u2 : i3.get 12 14 = i2.get 12 14 :=
    get_congr _ _ fun j hj1 hj2 hj3 => h7pt j hj3 (by omega)
  have v1 : b.get 25 31 = i3.get 25 31 :=
    get_congr _ _ fun j hj1 hj2 hj3 => hbpt j hj3 (Or.inr (Or.inr (by omega)))
  refine ⟨str, shamt, hstr, hsh, hlen3, hbget, ?_, ?_, ?_, ?_, ?_⟩
  · rw [t1, t2, t3, hoget]
  · rw [u1, u2, h3get]
  · rw [v1, h7get]
  · rw [hbf, h7f, h3f, hof]; rfl
  · rw [hbf6, h7f6, h3f6, hof6]; rfl


lemma convertRoriw_none {ops : List String} {str : String}
    (h2 : ops.get? 2 = some str) (hbig : ∀ n, parseU8 str = some n → 31 < n) :
    convertRoriw ops = none := by
  unfold convertRoriw
  cases e1 : BinaryInstruction.new.set_opcode 27 with
  | none => rfl
  | some i1 =>
    simp only [Option.some_bind]
    cases e2 : i1.set_funct3 5 with
    | none => rfl
    | some i2 =>
      simp only [Option.some_bind]
      cases e3 : i2.set_funct7 48 with
      | none => rfl
      | some i3 =>
        simp only [Option.some_bind, h2]
        cases e4 : parseU8 str with
        | none => rfl
        | some n =>
          simp only [Option.some_bind]
          exact set_2operands_none (hbig n e4)

/-! ## Auxiliary lemmas for the value of a bit sequence -/

lemma sum_testBit {W V : Nat} (h : V < 2 ^ W) :
    ∑ i ∈ Finset.range W, (V.testBit i).toNat * 2 ^ i = V := by
  induction W generalizing V with
  | zero =>
    simp only [Finset.range_zero, Finset.sum_empty]
    omega
  | succ k ih =>
    rw [Finset.sum_range_succ']
    have hd : V / 2 < 2 ^ k := by rw [pow_succ] at h; omega
    have hstep : ∀ i, (V.testBit (i + 1)).toNat * 2 ^ (i + 1) =
        2 * (((V / 2).testBit i).toNat * 2 ^ i) := by
      intro i
      rw [Nat.testBit_add_one, pow_succ]
      ring
    rw [Finset.sum_congr rfl fun i _ => hstep i, ← Finset.mul_sum, ih hd]
    simp only [Nat.testBit_zero, pow_zero, mul_one]
    rcases Nat.mod_two_eq_zero_or_one V with hm | hm <;> simp [hm] <;> omega

lemma bits_array_getD {V W i : Nat} {l : List Nat} (h : bits_array V W = some l)
    (hi : i < W) : l.getD i 0 = (V.testBit i).toNat := by
  unfold bits_array at h
  split at h
  case isTrue => exact absurd h (by simp)
  case isFalse =>
    split at h
    case isFalse => exact absurd h (by simp)
    case isTrue =>
      have hl := (Option.some.inj h).symm
      subst hl
      rw [List.getD_eq_getElem?_getD, List.getElem?_map, List.getElem?_range hi]
      simp only [Option.map_some', Option.getD_some]
      rw [Nat.one_shiftLeft, Nat.and_two_pow]
      cases htb : V.testBit i <;> simp [htb, Nat.pos_pow_of_pos]

lemma render_isSome {bb : BinaryInstruction} (h : bb.flag_shamt = bb.flag_funct6) :
    bb.render.isSome = true := by
  have h6 : bb.flag_funct6 = bb.flag_shamt := h.symm
  cases hs : bb.flag_shamt
  · rw [hs] at h6
    simp [BinaryInstruction.render, hs, h6]
  · rw [hs] at h6
    simp [BinaryInstruction.render, hs, h6]

/-! ## Claims -/

/-- C1: for each of the four documented regression fixtures, parsing the
line, encoding it with `convert`, and rendering the result yields exactly the
documented `.byte` directive, least-significant byte of the 32-bit word
first. -/
theorem c1_regression_fixtures :
    (parse_line "add.uw a2, s11, s5").convert.bind BinaryInstruction.render =
      some ".byte 0x3b,0x86,0x5d,0x09" ∧
    (parse_line "andn zero, tp, s6").convert.bind BinaryInstruction.render =
      some ".byte 0x33,0x70,0x62,0x41" ∧
    (parse_line "bclr s10, a4, a5").convert.bind BinaryInstruction.render =
      some ".byte 0x33,0x1d,0xf7,0x48" ∧
    (parse_line "sh3add.uw a3,s5,gp").convert.bind BinaryInstruction.render =
      some ".byte 0xbb,0xe6,0x3a,0x20" := by
  refine ⟨?_, ?_, ?_, ?_⟩ <;> decide

/-- C2: for `begin ≤ end < 32` and a bit list of length `end - begin + 1`
with entries in {0, 1}, `set(begin, end, bits)` succeeds, `get(begin, end)`
afterwards returns exactly `bits`, and every bit position outside
`[begin, end]` keeps the value it had before the write. -/
theorem c2_set_get_roundtrip_frame (inst : BinaryInstruction) (lo hi : Nat)
    (bits : List Nat) (h1 : lo ≤ hi) (h2 : hi < 32)
    (h3 : bits.length = hi - lo + 1) (h4 : ∀ b ∈ bits, b = 0 ∨ b = 1) :
    ∃ inst', inst.set lo hi bits = some inst' ∧
      inst'.get lo hi = some bits ∧
      ∀ j, j < 32 → j < lo ∨ hi < j →
        readBit inst'.data j = readBit inst.data j := by
  obtain ⟨i', hset⟩ := set_isSome h1 h2 h3 h4
  obtain ⟨hlen, -, -, -, hpt⟩ := set_spec hset
  exact ⟨i', hset, get_after_set hset h2,
    fun j hj hout => by rw [hpt j hj, if_neg (by omega)]⟩

theorem c2_witness :
    ∃ inst', BinaryInstruction.new.set 7 11 [1, 0, 1, 0, 1] = some inst' ∧
      inst'.get 7 11 = some [1, 0, 1, 0, 1] ∧
      ∀ j, j < 32 → j < 7 ∨ 11 < j →
        readBit inst'.data j = readBit BinaryInstruction.new.data j :=
  c2_set_get_roundtrip_frame BinaryInstruction.new 7 11 [1, 0, 1, 0, 1]
    (by decide) (by decide) (by decide) (by decide)

/-- C3 (counterexample to the claim as stated): the claim quantifies over
every width, but `val >> count` is a `u8` shift, which overflows for
`count ≥ 8`: `bits_array 5 8` aborts even though `5 < 2 ^ 8`, so no sequence
of length 8 is ever returned. -/
theorem c3_counterexample :
    (5 : Nat) < 2 ^ 8 ∧ bits_array 5 8 = none :=
  ⟨by decide, rfl⟩

/-- C3 (amended): for widths `W < 8` — those where the `u8` shift
`val >> count` does not overflow — and `V < 2 ^ W`, `bits_array V W` returns
a sequence of exactly `W` entries, each 0 or 1, whose little-endian value
(the sum over `i` of `bits[i] * 2 ^ i`) is `V`; for `V ≥ 2 ^ W` the call is
rejected (`none`, modelling the fatal assertion), and for every `W ≥ 8` it
is likewise rejected (the shift overflow aborts), so it never silently
truncates. -/
theorem c3_bits_array_roundtrip (V W : Nat) :
    (W < 8 → V < 2 ^ W → ∃ l, bits_array V W = some l ∧ l.length = W ∧
      (∀ b ∈ l, b = 0 ∨ b = 1) ∧ ∑ i ∈ Finset.range W, l.getD i 0 * 2 ^ i = V) ∧
    (2 ^ W ≤ V → bits_array V W = none) ∧
    (8 ≤ W → bits_array V W = none) := by
  refine ⟨?_, bits_array_eq_none, fun hw => ?_⟩
  · intro hc hv
    obtain ⟨l, hl⟩ := bits_array_isSome hc hv
    obtain ⟨hlen, hbin⟩ := bits_array_spec hl
    refine ⟨l, hl, hlen, hbin, ?_⟩
    calc ∑ i ∈ Finset.range W, l.getD i 0 * 2 ^ i
        = ∑ i ∈ Finset.range W, (V.testBit i).toNat * 2 ^ i :=
          Finset.sum_congr rfl fun i hi => by
            rw [bits_array_getD hl (Finset.mem_range.mp hi)]
      _ = V := sum_testBit hv
  · unfold bits_array
    rw [if_pos hw]

theorem c3_witness :
    (∃ l, bits_array 5 3 = some l ∧ l.length = 3 ∧
      (∀ b ∈ l, b = 0 ∨ b = 1) ∧ ∑ i ∈ Finset.range 3, l.getD i 0 * 2 ^ i = 5) ∧
    bits_array 8 3 = none ∧ bits_array 0 9 = none :=
  ⟨(c3_bits_array_roundtrip 5 3).1 (by decide) (by decide),
    (c3_bits_array_roundtrip 8 3).2.1 (by decide),
    (c3_bits_array_roundtrip 0 9).2.2 (by decide)⟩

/-- C4: each of the eleven two-operand unary mnemonics takes exactly two
register operands and `convert` writes the fixed constant `unaryRs2Const`
of the mnemonic — not a register — into the 5-bit rs2 slot (bits 20–24),
the constants being 0 for clz/clzw, 2 for cpop/cpopw, 1 for ctz/ctzw, 4 for
sext.b, 5 for sext.h, 7 for orc.b, 0x18 for rev8, and 0 for zext.h. -/
theorem c4_unary_rs2_constants (t : TextInstruction) (b : BinaryInstruction)
    (hm : t.opcode ∈ unaryMnemonics) (h : t.convert = some b) :
    t.operands.length = 2 ∧
      b.get 20 24 = bits_array (unaryRs2Const t.opcode) 5 := by
  obtain ⟨op, ops, raw⟩ := t
  simp only [unaryMnemonics, List.mem_cons, List.mem_nil_iff, or_false] at hm
  rcases hm with hop|hop|hop|hop|hop|hop|hop|hop|hop|hop|hop
  · subst hop
    have h' : convertUnary 0b0010011 0b001 0b0110000 0 ops = some b := h
    obtain ⟨hlen, -, -, hget⟩ := convertUnary_spec h'
    exact ⟨hlen, hget⟩
  · subst hop
    have h' : convertUnary 0b0011011 0b001 0b0110000 0 ops = some b := h
    obtain ⟨hlen, -, -, hget⟩ := convertUnary_spec h'
    exact ⟨hlen, hget⟩
  · subst hop
    have h' : convertUnary 0b0010011 0b001 0b0110000 0b00010 ops = some b := h
    obtain ⟨hlen, -, -, hget⟩ := convertUnary_spec h'
    exact ⟨hlen, hget⟩
  · subst hop
    have h' : convertUnary 0b0011011 0b001 0b0110000 0b00010 ops = some b := h
    obtain ⟨hlen, -, -, hget⟩ := convertUnary_spec h'
    exact ⟨hlen, hget⟩
  · subst hop
    have h' : convertUnary 0b0010011 0b001 0b0110000 0b00001 ops = some b := h
    obtain ⟨hlen, -, -, hget⟩ := convertUnary_spec h'
    exact ⟨hlen, hget⟩
  · subst hop
    have h' : convertUnary 0b0011011 0b001 0b0110000 0b00001 ops = some b := h
    obtain ⟨hlen, -, -, hget⟩ := convertUnary_spec h'
    exact ⟨hlen, hget⟩
  · subst hop
    have h' : convertUnary 0b0010011 0b001 0b0110000 0b00100 ops = some b := h
    obtain ⟨hlen, -, -, hget⟩ := convertUnary_spec h'
    exact ⟨hlen, hget⟩
  · subst hop
    have h' : convertUnary 0b0010011 0b001 0b0110000 0b00101 ops = some b := h
    obtain ⟨hlen, -, -, hget⟩ := convertUnary_spec h'
    exact ⟨hlen, hget⟩
  · subst hop
    have h' : convertUnary 0b0010011 0b101 0b0010100 0b00111 ops = some b := h
    obtain ⟨hlen, -, -, hget⟩ := convertUnary_spec h'
    exact ⟨hlen, hget⟩
  · subst hop
    have h' : convertUnary 0b0010011 0b101 0b0110101 0b11000 ops = some b := h
    obtain ⟨hlen, -, -, hget⟩ := convertUnary_spec h'
    exact ⟨hlen, hget⟩
  · subst hop
    have h' : convertUnary 0b0111011 0b100 0b0000100 0b00000 ops = some b := h
    obtain ⟨hlen, -, -, hget⟩ := convertUnary_spec h'
    exact ⟨hlen, hget⟩

theorem c4_witness :
    ∃ b, (TextInstruction.mk "rev8" ["a0", "a1"] none).convert = some b ∧
      ((TextInstruction.mk "rev8" ["a0", "a1"] none).operands.length = 2 ∧
        b.get 20 24 =
          bits_array (unaryRs2Const (TextInstruction.mk "rev8" ["a0", "a1"] none).opcode) 5) :=
  ⟨((TextInstruction.mk "rev8" ["a0", "a1"] none).convert).get (by decide),
    (Option.some_get (by decide)).symm,
    c4_unary_rs2_constants (TextInstruction.mk "rev8" ["a0", "a1"] none) _
      (by decide) (Option.some_get (by decide)).symm⟩

/-- C5: `convert` encodes `roriw` with opcode 0b0011011, funct3 0b101 and
funct7 0b0110000, parsing the third operand as a decimal shift amount and
placing it in the 5-bit rs2 slot (bits 20–24) under the funct7 layout — not
in the 6-bit shamt field — and the result has neither `flag_shamt` nor
`flag_funct6` set (no shamt/funct6 pairing). -/
theorem c5_roriw_layout (t : TextInstruction) (b : BinaryInstruction)
    (hop : t.opcode = "roriw") (h : t.convert = some b) :
    ∃ str shamt, t.operands.get? 2 = some str ∧ parseU8 str = some shamt ∧
      t.operands.length = 3 ∧
      b.get 20 24 = bits_array shamt 5 ∧
      b.get 0 6 = bits_array 0b0011011 7 ∧
      b.get 12 14 = bits_array 0b101 3 ∧
      b.get 25 31 = bits_array 0b0110000 7 ∧
      b.flag_shamt = false ∧ b.flag_funct6 = false := by
  obtain ⟨op, ops, raw⟩ := t
  simp only at hop
  subst hop
  exact convertRoriw_spec (show convertRoriw ops = some b from h)

theorem c5_witness :
    ∃ b, (TextInstruction.mk "roriw" ["a0", "a1", "7"] none).convert = some b ∧
      ∃ str shamt,
        (TextInstruction.mk "roriw" ["a0", "a1", "7"] none).operands.get? 2 = some str ∧
        parseU8 str = some shamt ∧
        (TextInstruction.mk "roriw" ["a0", "a1", "7"] none).operands.length = 3 ∧
        b.get 20 24 = bits_array shamt 5 ∧
        b.get 0 6 = bits_array 0b0011011 7 ∧
        b.get 12 14 = bits_array 0b101 3 ∧
        b.get 25 31 = bits_array 0b0110000 7 ∧
        b.flag_shamt = false ∧ b.flag_funct6 = false :=
  ⟨((TextInstruction.mk "roriw" ["a0", "a1", "7"] none).convert).get (by decide),
    (Option.some_get (by decide)).symm,
    c5_roriw_layout (TextInstruction.mk "roriw" ["a0", "a1", "7"] none) _
      rfl (Option.some_get (by decide)).symm⟩

/-- C6: for the funct6+shamt mnemonics (bclri, bexti, binvi, bseti, rori,
slli.uw), a third operand whose numeric value is outside [0, 63] makes
`convert` abort (`none`) rather than silently mask the shift amount; for
`roriw` the same holds outside [0, 31].  A value with no `u8` parse at all
(e.g. 256 or more) also aborts, so the hypothesis only constrains the
parses that succeed. -/
theorem c6_shift_amount_range :
    (∀ t : TextInstruction, t.opcode ∈ shiftImmMnemonics →
      ∀ str, t.operands.get? 2 = some str →
        (∀ n, parseU8 str = some n → 63 < n) → t.convert = none) ∧
    (∀ t : TextInstruction, t.opcode = "roriw" →
      ∀ str, t.operands.get? 2 = some str →
        (∀ n, parseU8 str = some n → 31 < n) → t.convert = none) := by
  constructor
  · intro t hm str hstr hbig
    obtain ⟨op, ops, raw⟩ := t
    simp only [shiftImmMnemonics, List.mem_cons, List.mem_nil_iff, or_false] at hm
    simp only at hstr
    rcases hm with hop|hop|hop|hop|hop|hop
    · subst hop
      exact (convertShift_none hstr hbig :
        convertShift 0b0010011 0b001 0b010010 ops = none)
    · subst hop
      exact (convertShift_none hstr hbig :
        convertShift 0b0010011 0b101 0b010010 ops = none)
    · subst hop
      exact (convertShift_none hstr hbig :
        convertShift 0b0010011 0b001 0b011010 ops = none)
    · subst hop
      exact (convertShift_none hstr hbig :
        convertShift 0b0010011 0b001 0b001010 ops = none)
    · subst hop
      exact (convertShift_none hstr hbig :
        convertShift 0b0010011 0b101 0b011000 ops = none)
    · subst hop
      exact (convertShift_none hstr hbig :
        convertShift 0b0011011 0b001 0b000010 ops = none)
  · intro t hop str hstr hbig
    obtain ⟨op, ops, raw⟩ := t
    simp only at hop hstr
    subst hop
    exact (convertRoriw_none hstr hbig : convertRoriw ops = none)

theorem c6_witness :
    (TextInstruction.mk "bclri" ["a0", "a1", "64"] none).convert = none ∧
    (TextInstruction.mk "roriw" ["a0", "a1", "32"] none).convert = none := by
  constructor
  · apply c6_shift_amount_range.1 (TextInstruction.mk "bclri" ["a0", "a1", "64"] none)
      (by decide) "64" rfl
    intro n hn
    rw [show parseU8 "64" = some 64 from rfl] at hn
    have := Option.some.inj hn
    omega
  · apply c6_shift_amount_range.2 (TextInstruction.mk "roriw" ["a0", "a1", "32"] none)
      rfl "32" rfl
    intro n hn
    rw [show parseU8 "32" = some 32 from rfl] at hn
    have := Option.some.inj hn
    omega

/-- C7 (counterexample to the claim as stated): the immediate-shift recipe
does not assert its arity — `bclri` given 4 operands (one more than its
3-operand form) is encoded without any error, the extra operand silently
ignored. -/
theorem c7_counterexample :
    (TextInstruction.mk "bclri" ["a0", "a1", "3", "5"] none).convert.isSome = true ∧
      "bclri" ∈ shiftImmMnemonics ∧
      (TextInstruction.mk "bclri" ["a0", "a1", "3", "5"] none).operands.length ≠ 3 := by
  refine ⟨by decide, by decide, by decide⟩

/-- C7 (amended): when `convert` succeeds, the R-type recipes have asserted
exactly 3 operands and the two-operand-plus-constant recipes exactly 2
(`roriw` exactly 3 as well, through the arity check after the pop), but the
six immediate-shift recipes only force at least 3 operands: operands beyond
the third are silently ignored, not fatal. -/
theorem c7_amended :
    (∀ (t : TextInstruction) (b : BinaryInstruction), t.convert = some b →
      t.opcode ∈ rTypeMnemonics → t.operands.length = 3) ∧
    (∀ (t : TextInstruction) (b : BinaryInstruction), t.convert = some b →
      t.opcode ∈ unaryMnemonics → t.operands.length = 2) ∧
    (∀ (t : TextInstruction) (b : BinaryInstruction), t.convert = some b →
      t.opcode ∈ shiftImmMnemonics → 3 ≤ t.operands.length) ∧
    (∀ (t : TextInstruction) (b : BinaryInstruction), t.convert = some b →
      t.opcode = "roriw" → t.operands.length = 3) := by
  refine ⟨?_, ?_, ?_, ?_⟩
  · intro t b h hm
    obtain ⟨op, ops, raw⟩ := t
    simp only [rTypeMnemonics, List.mem_cons, List.mem_nil_iff, or_false] at hm
    rcases hm with hop|hop|hop|hop|hop|hop|hop|hop|hop|hop|hop|hop|hop|hop|hop|hop|hop|hop|hop|hop|hop|hop|hop|hop|hop
    · subst hop
      exact (convertR_spec (show convertR 0b0111011 0 0b0000100 ops = some b from h)).1
    · subst hop
      exact (convertR_spec (show convertR 0b0110011 0b111 0b0100000 ops = some b from h)).1
    · subst hop
      exact (convertR_spec (show convertR 0b0110011 0b001 0b0100100 ops = some b from h)).1
    · subst hop
      exact (convertR_spec (show convertR 0b0110011 0b101 0b0100100 ops = some b from h)).1
    · subst hop
      exact (convertR_spec (show convertR 0b0110011 0b001 0b0110100 ops = some b from h)).1
    · subst hop
      exact (convertR_spec (show convertR 0b0110011 0b001 0b0010100 ops = some b from h)).1
    · subst hop
      exact (convertR_spec (show convertR 0b0110011 0b001 0b0000101 ops = some b from h)).1
    · subst hop
      exact (convertR_spec (show convertR 0b0110011 0b011 0b0000101 ops = some b from h)).1
    · subst hop
      exact (convertR_spec (show convertR 0b0110011 0b010 0b0000101 ops = some b from h)).1
    · subst hop
      exact (convertR_spec (show convertR 0b0110011 0b110 0b0000101 ops = some b from h)).1
    · subst hop
      exact (convertR_spec (show convertR 0b0110011 0b111 0b0000101 ops = some b from h)).1
    · subst hop
      exact (convertR_spec (show convertR 0b0110011 0b100 0b0000101 ops = some b from h)).1
    · subst hop
      exact (convertR_spec (show convertR 0b0110011 0b101 0b0000101 ops = some b from h)).1
    · subst hop
      exact (convertR_spec (show convertR 0b0110011 0b110 0b0100000 ops = some b from h)).1
    · subst hop
      exact (convertR_spec (show convertR 0b0110011 0b001 0b0110000 ops = some b from h)).1
    · subst hop
      exact (convertR_spec (show convertR 0b0111011 0b001 0b0110000 ops = some b from h)).1
    · subst hop
      exact (convertR_spec (show convertR 0b110011 0b101 0b0110000 ops = some b from h)).1
    · subst hop
      exact (convertR_spec (show convertR 0b0111011 0b101 0b0110000 ops = some b from h)).1
    · subst hop
      exact (convertR_spec (show convertR 0b0110011 0b010 0b0010000 ops = some b from h)).1
    · subst hop
      exact (convertR_spec (show convertR 0b0111011 0b010 0b0010000 ops = some b from h)).1
    · subst hop
      exact (convertR_spec (show convertR 0b0110011 0b100 0b0010000 ops = some b from h)).1
    · subst hop
      exact (convertR_spec (show convertR 0b0111011 0b100 0b0010000 ops = some b from h)).1
    · subst hop
      exact (convertR_spec (show convertR 0b0110011 0b110 0b0010000 ops = some b from h)).1
    · subst hop
      exact (convertR_spec (show convertR 0b0111011 0b110 0b0010000 ops = some b from h)).1
    · subst hop
      exact (convertR_spec (show convertR 0b0110011 0b100 0b0100000 ops = some b from h)).1
  · intro t b h hm
    obtain ⟨op, ops, raw⟩ := t
    simp only [unaryMnemonics, List.mem_cons, List.mem_nil_iff, or_false] at hm
    rcases hm with hop|hop|hop|hop|hop|hop|hop|hop|hop|hop|hop
    · subst hop
      exact (convertUnary_spec (show convertUnary 0b0010011 0b001 0b0110000 0 ops = some b from h)).1
    · subst hop
      exact (convertUnary_spec (show convertUnary 0b0011011 0b001 0b0110000 0 ops = some b from h)).1
    · subst hop
      exact (convertUnary_spec (show convertUnary 0b0010011 0b001 0b0110000 0b00010 ops = some b from h)).1
    · subst hop
      exact (convertUnary_spec (show convertUnary 0b0011011 0b001 0b0110000 0b00010 ops = some b from h)).1
    · subst hop
      exact (convertUnary_spec (show convertUnary 0b0010011 0b001 0b0110000 0b00001 ops = some b from h)).1
    · subst hop
      exact (convertUnary_spec (show convertUnary 0b0011011 0b001 0b0110000 0b00001 ops = some b from h)).1
    · subst hop
      exact (convertUnary_spec (show convertUnary 0b0010011 0b001 0b0110000 0b00100 ops = some b from h)).1
    · subst hop
      exact (convertUnary_spec (show convertUnary 0b0010011 0b001 0b0110000 0b00101 ops = some b from h)).1
    · subst hop
      exact (convertUnary_spec (show convertUnary 0b0010011 0b101 0b0010100 0b00111 ops = some b from h)).1
    · subst hop
      exact (convertUnary_spec (show convertUnary 0b0010011 0b101 0b0110101 0b11000 ops = some b from h)).1
    · subst hop
      exact (convertUnary_spec (show convertUnary 0b0111011 0b100 0b0000100 0b00000 ops = some b from h)).1
  · intro t b h hm
    obtain ⟨op, ops, raw⟩ := t
    simp only [shiftImmMnemonics, List.mem_cons, List.mem_nil_iff, or_false] at hm
    rcases hm with hop|hop|hop|hop|hop|hop
    · subst hop
      exact (convertShift_spec (show convertShift 0b0010011 0b001 0b010010 ops = some b from h)).1
    · subst hop
      exact (convertShift_spec (show convertShift 0b0010011 0b101 0b010010 ops = some b from h)).1
    · subst hop
      exact (convertShift_spec (show convertShift 0b0010011 0b001 0b011010 ops = some b from h)).1
    · subst hop
      exact (convertShift_spec (show convertShift 0b0010011 0b001 0b001010 ops = some b from h)).1
    · subst hop
      exact (convertShift_spec (show convertShift 0b0010011 0b101 0b011000 ops = some b from h)).1
    · subst hop
      exact (convertShift_spec (show convertShift 0b0011011 0b001 0b000010 ops = some b from h)).1
  · intro t b h hop
    obtain ⟨op, ops, raw⟩ := t
    simp only at hop
    subst hop
    obtain ⟨-, -, -, -, hlen, -, -, -, -, -, -⟩ :=
      convertRoriw_spec (show convertRoriw ops = some b from h)
    exact hlen

theorem c7_amended_witness :
    ∃ b, (TextInstruction.mk "andn" ["zero", "tp", "s6"] none).convert = some b ∧
      (TextInstruction.mk "andn" ["zero", "tp", "s6"] none).operands.length = 3 :=
  ⟨((TextInstruction.mk "andn" ["zero", "tp", "s6"] none).convert).get (by decide),
    (Option.some_get (by decide)).symm,
    c7_amended.1 (TextInstruction.mk "andn" ["zero", "tp", "s6"] none) _
      (Option.some_get (by decide)).symm (by decide)⟩

/-- C8: an opcode string that is not one of the supported mnemonics makes
`convert` return `none` (no error), and such an instruction is rendered back
as `<opcode> <operand1>,<operand2>,...`; in particular `add t6, t6, s0`
parses, fails to convert, and renders as `add t6,t6,s0`. -/
theorem c8_unknown_opcode_passthrough :
    (∀ t : TextInstruction, t.opcode ∉ supportedMnemonics → t.convert = none) ∧
    (parse_line "add t6, t6, s0").convert = none ∧
    (parse_line "add t6, t6, s0").render = "add t6,t6,s0" := by
  refine ⟨?_, Option.isNone_iff_eq_none.mp (by decide), by decide⟩
  intro t h
  unfold TextInstruction.convert
  by_cases g1 : t.opcode = "add.uw"
  · exact absurd (by decide) (g1 ▸ h)
  rw [if_neg g1]
  by_cases g2 : t.opcode = "andn"
  · exact absurd (by decide) (g2 ▸ h)
  rw [if_neg g2]
  by_cases g3 : t.opcode = "bclr"
  · exact absurd (by decide) (g3 ▸ h)
  rw [if_neg g3]
  by_cases g4 : t.opcode = "bclri"
  · exact absurd (by decide) (g4 ▸ h)
  rw [if_neg g4]
  by_cases g5 : t.opcode = "bext"
  · exact absurd (by decide) (g5 ▸ h)
  rw [if_neg g5]
  by_cases g6 : t.opcode = "bexti"
  · exact absurd (by decide) (g6 ▸ h)
  rw [if_neg g6]
  by_cases g7 : t.opcode = "binv"
  · exact absurd (by decide) (g7 ▸ h)
  rw [if_neg g7]
  by_cases g8 : t.opcode = "binvi"
  · exact absurd (by decide) (g8 ▸ h)
  rw [if_neg g8]
  by_cases g9 : t.opcode = "bset"
  · exact absurd (by decide) (g9 ▸ h)
  rw [if_neg g9]
  by_cases g10 : t.opcode = "bseti"
  · exact absurd (by decide) (g10 ▸ h)
  rw [if_neg g10]
  by_cases g11 : t.opcode = "clmul"
  · exact absurd (by decide) (g11 ▸ h)
  rw [if_neg g11]
  by_cases g12 : t.opcode = "clmulh"
  · exact absurd (by decide) (g12 ▸ h)
  rw [if_neg g12]
  by_cases g13 : t.opcode = "clmulr"
  · exact absurd (by decide) (g13 ▸ h)
  rw [if_neg g13]
  by_cases g14 : t.opcode = "clz"
  · exact absurd (by decide) (g14 ▸ h)
  rw [if_neg g14]
  by_cases g15 : t.opcode = "clzw"
  · exact absurd (by decide) (g15 ▸ h)
  rw [if_neg g15]
  by_cases g16 : t.opcode = "cpop"
  · exact absurd (by decide) (g16 ▸ h)
  rw [if_neg g16]
  by_cases g17 : t.opcode = "cpopw"
  · exact absurd (by decide) (g17 ▸ h)
  rw [if_neg g17]
  by_cases g18 : t.opcode = "ctz"
  · exact absurd (by decide) (g18 ▸ h)
  rw [if_neg g18]
  by_cases g19 : t.opcode = "ctzw"
  · exact absurd (by decide) (g19 ▸ h)
  rw [if_neg g19]
  by_cases g20 : t.opcode = "max"
  · exact absurd (by decide) (g20 ▸ h)
  rw [if_neg g20]
  by_cases g21 : t.opcode = "maxu"
  · exact absurd (by decide) (g21 ▸ h)
  rw [if_neg g21]
  by_cases g22 : t.opcode = "min"
  · exact absurd (by decide) (g22 ▸ h)
  rw [if_neg g22]
  by_cases g23 : t.opcode = "minu"
  · exact absurd (by decide) (g23 ▸ h)
  rw [if_neg g23]
  by_cases g24 : t.opcode = "orc.b"
  · exact absurd (by decide) (g24 ▸ h)
  rw [if_neg g24]
  by_cases g25 : t.opcode = "orn"
  · exact absurd (by decide) (g25 ▸ h)
  rw [if_neg g25]
  by_cases g26 : t.opcode = "rev8"
  · exact absurd (by decide) (g26 ▸ h)
  rw [if_neg g26]
  by_cases g27 : t.opcode = "rol"
  · exact absurd (by decide) (g27 ▸ h)
  rw [if_neg g27]
  by_cases g28 : t.opcode = "rolw"
  · exact absurd (by decide) (g28 ▸ h)
  rw [if_neg g28]
  by_cases g29 : t.opcode = "ror"
  · exact absurd (by decide) (g29 ▸ h)
  rw [if_neg g29]
  by_cases g30 : t.opcode = "rori"
  · exact absurd (by decide) (g30 ▸ h)
  rw [if_neg g30]
  by_cases g31 : t.opcode = "roriw"
  · exact absurd (by decide) (g31 ▸ h)
  rw [if_neg g31]
  by_cases g32 : t.opcode = "rorw"
  · exact absurd (by decide) (g32 ▸ h)
  rw [if_neg g32]
  by_cases g33 : t.opcode = "sext.b"
  · exact absurd (by decide) (g33 ▸ h)
  rw [if_neg g33]
  by_cases g34 : t.opcode = "sext.h"
  · exact absurd (by decide) (g34 ▸ h)
  rw [if_neg g34]
  by_cases g35 : t.opcode = "sh1add"
  · exact absurd (by decide) (g35 ▸ h)
  rw [if_neg g35]
  by_cases g36 : t.opcode = "sh1add.uw"
  · exact absurd (by decide) (g36 ▸ h)
  rw [if_neg g36]
  by_cases g37 : t.opcode = "sh2add"
  · exact absurd (by decide) (g37 ▸ h)
  rw [if_neg g37]
  by_cases g38 : t.opcode = "sh2add.uw"
  · exact absurd (by decide) (g38 ▸ h)
  rw [if_neg g38]
  by_cases g39 : t.opcode = "sh3add"
  · exact absurd (by decide) (g39 ▸ h)
  rw [if_neg g39]
  by_cases g40 : t.opcode = "sh3add.uw"
  · exact absurd (by decide) (g40 ▸ h)
  rw [if_neg g40]
  by_cases g41 : t.opcode = "slli.uw"
  · exact absurd (by decide) (g41 ▸ h)
  rw [if_neg g41]
  by_cases g42 : t.opcode = "xnor"
  · exact absurd (by decide) (g42 ▸ h)
  rw [if_neg g42]
  by_cases g43 : t.opcode = "zext.h"
  · exact absurd (by decide) (g43 ▸ h)
  rw [if_neg g43]

theorem c8_witness :
    (TextInstruction.mk "mul" ["a0", "a1", "a2"] none).convert = none :=
  c8_unknown_opcode_passthrough.1 (TextInstruction.mk "mul" ["a0", "a1", "a2"] none)
    (by decide)


/-- C9 (counterexample to the claim as stated): `parse_line` splits on the
space character only, not on whitespace — the line "a\tb" has 2
whitespace-separated tokens yet is marked raw passthrough, so "raw exactly
when fewer than 2 whitespace-separated tokens" fails. -/
theorem c9_counterexample :
    (parse_line "a\tb").raw = some "a\tb" ∧
      (whitespaceTokens "a\tb").length = 2 ∧
      ¬((parse_line "a\tb").raw ≠ none ↔ (whitespaceTokens "a\tb").length < 2) := by
  refine ⟨by decide, by decide, fun hiff => ?_⟩
  exact absurd (hiff.mp (by decide)) (by decide)

/-- C9 (amended): `parse_line` marks a line as raw passthrough exactly when
splitting it on the space character (keeping empty fields) yields fewer than
2 fields, and the stored raw string is then the input line itself, character
for character. -/
theorem c9_amended (line : String) :
    ((parse_line line).raw ≠ none ↔ (splitChars ' ' line.data).length < 2) ∧
      ∀ s, (parse_line line).raw = some s → s = line := by
  by_cases hc : (splitChars ' ' line.data).length ≥ 2
  · have hr : (parse_line line).raw = none := by
      simp only [parse_line]
      rw [if_pos hc]
    refine ⟨?_, fun s hs => absurd (hr ▸ hs) (by simp)⟩
    rw [hr]
    exact ⟨fun hcon => absurd rfl hcon, fun hlt => absurd hlt (by omega)⟩
  · have hr : (parse_line line).raw = some line := by
      simp only [parse_line]
      rw [if_neg hc]
    refine ⟨?_, fun s hs => (Option.some.inj (hr ▸ hs)).symm⟩
    rw [hr]
    constructor
    · intro _
      omega
    · intro _
      simp

theorem c9_amended_witness :
    (parse_line "label:").raw = some "label:" ∧ "label:" = "label:" :=
  ⟨by decide, (c9_amended "label:").2 "label:" (by decide)⟩

/-- C10: every instruction produced by `convert` has `flag_shamt` equal to
`flag_funct6` — both are set exactly for the six funct6/shamt mnemonics and
clear for every other supported mnemonic — so the shamt/funct6 pairing panic
in the byte formatter can never fire on a `convert` result (`render`
succeeds). -/
theorem c10_flag_pairing (t : TextInstruction) (b : BinaryInstruction)
    (h : t.convert = some b) :
    b.flag_shamt = b.flag_funct6 ∧
      (b.flag_shamt = true ↔ t.opcode ∈ shiftImmMnemonics) ∧
      b.render.isSome = true := by
  unfold TextInstruction.convert at h

  by_cases g1 : t.opcode = "add.uw"
  · rw [if_pos g1] at h
    obtain ⟨-, hs, hf⟩ := convertR_spec h
    exact ⟨by rw [hs, hf], by rw [hs, g1]; decide, render_isSome (by rw [hs, hf])⟩
  rw [if_neg g1] at h
  by_cases g2 : t.opcode = "andn"
  · rw [if_pos g2] at h
    obtain ⟨-, hs, hf⟩ := convertR_spec h
    exact ⟨by rw [hs, hf], by rw [hs, g2]; decide, render_isSome (by rw [hs, hf])⟩
  rw [if_neg g2] at h
  by_cases g3 : t.opcode = "bclr"
  · rw [if_pos g3] at h
    obtain ⟨-, hs, hf⟩ := convertR_spec h
    exact ⟨by rw [hs, hf], by rw [hs, g3]; decide, render_isSome (by rw [hs, hf])⟩
  rw [if_neg g3] at h
  by_cases g4 : t.opcode = "bclri"
  · rw [if_pos g4] at h
    obtain ⟨-, hs, hf⟩ := convertShift_spec h
    exact ⟨by rw [hs, hf], by rw [hs, g4]; decide, render_isSome (by rw [hs, hf])⟩
  rw [if_neg g4] at h
  by_cases g5 : t.opcode = "bext"
  · rw [if_pos g5] at h
    obtain ⟨-, hs, hf⟩ := convertR_spec h
    exact ⟨by rw [hs, hf], by rw [hs, g5]; decide, render_isSome (by rw [hs, hf])⟩
  rw [if_neg g5] at h
  by_cases g6 : t.opcode = "bexti"
  · rw [if_pos g6] at h
    obtain ⟨-, hs, hf⟩ := convertShift_spec h
    exact ⟨by rw [hs, hf], by rw [hs, g6]; decide, render_isSome (by rw [hs, hf])⟩
  rw [if_neg g6] at h
  by_cases g7 : t.opcode = "binv"
  · rw [if_pos g7] at h
    obtain ⟨-, hs, hf⟩ := convertR_spec h
    exact ⟨by rw [hs, hf], by rw [hs, g7]; decide, render_isSome (by rw [hs, hf])⟩
  rw [if_neg g7] at h
  by_cases g8 : t.opcode = "binvi"
  · rw [if_pos g8] at h
    obtain ⟨-, hs, hf⟩ := convertShift_spec h
    exact ⟨by rw [hs, hf], by rw [hs, g8]; decide, render_isSome (by rw [hs, hf])⟩
  rw [if_neg g8] at h
  by_cases g9 : t.opcode = "bset"
  · rw [if_pos g9] at h
    obtain ⟨-, hs, hf⟩ := convertR_spec h
    exact ⟨by rw [hs, hf], by rw [hs, g9]; decide, render_isSome (by rw [hs, hf])⟩
  rw [if_neg g9] at h
  by_cases g10 : t.opcode = "bseti"
  · rw [if_pos g10] at h
    obtain ⟨-, hs, hf⟩ := convertShift_spec h
    exact ⟨by rw [hs, hf], by rw [hs, g10]; decide, render_isSome (by rw [hs, hf])⟩
  rw [if_neg g10] at h
  by_cases g11 : t.opcode = "clmul"
  · rw [if_pos g11] at h
    obtain ⟨-, hs, hf⟩ := convertR_spec h
    exact ⟨by rw [hs, hf], by rw [hs, g11]; decide, render_isSome (by rw [hs, hf])⟩
  rw [if_neg g11] at h
  by_cases g12 : t.opcode = "clmulh"
  · rw [if_pos g12] at h
    obtain ⟨-, hs, hf⟩ := convertR_spec h
    exact ⟨by rw [hs, hf], by rw [hs, g12]; decide, render_isSome (by rw [hs, hf])⟩
  rw [if_neg g12] at h
  by_cases g13 : t.opcode = "clmulr"
  · rw [if_pos g13] at h
    obtain ⟨-, hs, hf⟩ := convertR_spec h
    exact ⟨by rw [hs, hf], by rw [hs, g13]; decide, render_isSome (by rw [hs, hf])⟩
  rw [if_neg g13] at h
  by_cases g14 : t.opcode = "clz"
  · rw [if_pos g14] at h
    obtain ⟨-, hs, hf, -⟩ := convertUnary_spec h
    exact ⟨by rw [hs, hf], by rw [hs, g14]; decide, render_isSome (by rw [hs, hf])⟩
  rw [if_neg g14] at h
  by_cases g15 : t.opcode = "clzw"
  · rw [if_pos g15] at h
    obtain ⟨-, hs, hf, -⟩ := convertUnary_spec h
    exact ⟨by rw [hs, hf], by rw [hs, g15]; decide, render_isSome (by rw [hs, hf])⟩
  rw [if_neg g15] at h
  by_cases g16 : t.opcode = "cpop"
  · rw [if_pos g16] at h
    obtain ⟨-, hs, hf, -⟩ := convertUnary_spec h
    exact ⟨by rw [hs, hf], by rw [hs, g16]; decide, render_isSome (by rw [hs, hf])⟩
  rw [if_neg g16] at h
  by_cases g17 : t.opcode = "cpopw"
  · rw [if_pos g17] at h
    obtain ⟨-, hs, hf, -⟩ := convertUnary_spec h
    exact ⟨by rw [hs, hf], by rw [hs, g17]; decide, render_isSome (by rw [hs, hf])⟩
  rw [if_neg g17] at h
  by_cases g18 : t.opcode = "ctz"
  · rw [if_pos g18] at h
    obtain ⟨-, hs, hf, -⟩ := convertUnary_spec h
    exact ⟨by rw [hs, hf], by rw [hs, g18]; decide, render_isSome (by rw [hs, hf])⟩
  rw [if_neg g18] at h
  by_cases g19 : t.opcode = "ctzw"
  · rw [if_pos g19] at h
    obtain ⟨-, hs, hf, -⟩ := convertUnary_spec h
    exact ⟨by rw [hs, hf], by rw [hs, g19]; decide, render_isSome (by rw [hs, hf])⟩
  rw [if_neg g19] at h
  by_cases g20 : t.opcode = "max"
  · rw [if_pos g20] at h
    obtain ⟨-, hs, hf⟩ := convertR_spec h
    exact ⟨by rw [hs, hf], by rw [hs, g20]; decide, render_isSome (by rw [hs, hf])⟩
  rw [if_neg g20] at h
  by_cases g21 : t.opcode = "maxu"
  · rw [if_pos g21] at h
    obtain ⟨-, hs, hf⟩ := convertR_spec h
    exact ⟨by rw [hs, hf], by rw [hs, g21]; decide, render_isSome (by rw [hs, hf])⟩
  rw [if_neg g21] at h
  by_cases g22 : t.opcode = "min"
  · rw [if_pos g22] at h
    obtain ⟨-, hs, hf⟩ := convertR_spec h
    exact ⟨by rw [hs, hf], by rw [hs, g22]; decide, render_isSome (by rw [hs, hf])⟩
  rw [if_neg g22] at h
  by_cases g23 : t.opcode = "minu"
  · rw [if_pos g23] at h
    obtain ⟨-, hs, hf⟩ := convertR_spec h
    exact ⟨by rw [hs, hf], by rw [hs, g23]; decide, render_isSome (by rw [hs, hf])⟩
  rw [if_neg g23] at h
  by_cases g24 : t.opcode = "orc.b"
  · rw [if_pos g24] at h
    obtain ⟨-, hs, hf, -⟩ := convertUnary_spec h
    exact ⟨by rw [hs, hf], by rw [hs, g24]; decide, render_isSome (by rw [hs, hf])⟩
  rw [if_neg g24] at h
  by_cases g25 : t.opcode = "orn"
  · rw [if_pos g25] at h
    obtain ⟨-, hs, hf⟩ := convertR_spec h
    exact ⟨by rw [hs, hf], by rw [hs, g25]; decide, render_isSome (by rw [hs, hf])⟩
  rw [if_neg g25] at h
  by_cases g26 : t.opcode = "rev8"
  · rw [if_pos g26] at h
    obtain ⟨-, hs, hf, -⟩ := convertUnary_spec h
    exact ⟨by rw [hs, hf], by rw [hs, g26]; decide, render_isSome (by rw [hs, hf])⟩
  rw [if_neg g26] at h
  by_cases g27 : t.opcode = "rol"
  · rw [if_pos g27] at h
    obtain ⟨-, hs, hf⟩ := convertR_spec h
    exact ⟨by rw [hs, hf], by rw [hs, g27]; decide, render_isSome (by rw [hs, hf])⟩
  rw [if_neg g27] at h
  by_cases g28 : t.opcode = "rolw"
  · rw [if_pos g28] at h
    obtain ⟨-, hs, hf⟩ := convertR_spec h
    exact ⟨by rw [hs, hf], by rw [hs, g28]; decide, render_isSome (by rw [hs, hf])⟩
  rw [if_neg g28] at h
  by_cases g29 : t.opcode = "ror"
  · rw [if_pos g29] at h
    obtain ⟨-, hs, hf⟩ := convertR_spec h
    exact ⟨by rw [hs, hf], by rw [hs, g29]; decide, render_isSome (by rw [hs, hf])⟩
  rw [if_neg g29] at h
  by_cases g30 : t.opcode = "rori"
  · rw [if_pos g30] at h
    obtain ⟨-, hs, hf⟩ := convertShift_spec h
    exact ⟨by rw [hs, hf], by rw [hs, g30]; decide, render_isSome (by rw [hs, hf])⟩
  rw [if_neg g30] at h
  by_cases g31 : t.opcode = "roriw"
  · rw [if_pos g31] at h
    obtain ⟨-, -, -, -, -, -, -, -, -, hs, hf⟩ := convertRoriw_spec h
    exact ⟨by rw [hs, hf], by rw [hs, g31]; decide, render_isSome (by rw [hs, hf])⟩
  rw [if_neg g31] at h
  by_cases g32 : t.opcode = "rorw"
  · rw [if_pos g32] at h
    obtain ⟨-, hs, hf⟩ := convertR_spec h
    exact ⟨by rw [hs, hf], by rw [hs, g32]; decide, render_isSome (by rw [hs, hf])⟩
  rw [if_neg g32] at h
  by_cases g33 : t.opcode = "sext.b"
  · rw [if_pos g33] at h
    obtain ⟨-, hs, hf, -⟩ := convertUnary_spec h
    exact ⟨by rw [hs, hf], by rw [hs, g33]; decide, render_isSome (by rw [hs, hf])⟩
  rw [if_neg g33] at h
  by_cases g34 : t.opcode = "sext.h"
  · rw [if_pos g34] at h
    obtain ⟨-, hs, hf, -⟩ := convertUnary_spec h
    exact ⟨by rw [hs, hf], by rw [hs, g34]; decide, render_isSome (by rw [hs, hf])⟩
  rw [if_neg g34] at h
  by_cases g35 : t.opcode = "sh1add"
  · rw [if_pos g35] at h
    obtain ⟨-, hs, hf⟩ := convertR_spec h
    exact ⟨by rw [hs, hf], by rw [hs, g35]; decide, render_isSome (by rw [hs, hf])⟩
  rw [if_neg g35] at h
  by_cases g36 : t.opcode = "sh1add.uw"
  · rw [if_pos g36] at h
    obtain ⟨-, hs, hf⟩ := convertR_spec h
    exact ⟨by rw [hs, hf], by rw [hs, g36]; decide, render_isSome (by rw [hs, hf])⟩
  rw [if_neg g36] at h
  by_cases g37 : t.opcode = "sh2add"
  · rw [if_pos g37] at h
    obtain ⟨-, hs, hf⟩ := convertR_spec h
    exact ⟨by rw [hs, hf], by rw [hs, g37]; decide, render_isSome (by rw [hs, hf])⟩
  rw [if_neg g37] at h
  by_cases g38 : t.opcode = "sh2add.uw"
  · rw [if_pos g38] at h
    obtain ⟨-, hs, hf⟩ := convertR_spec h
    exact ⟨by rw [hs, hf], by rw [hs, g38]; decide, render_isSome (by rw [hs, hf])⟩
  rw [if_neg g38] at h
  by_cases g39 : t.opcode = "sh3add"
  · rw [if_pos g39] at h
    obtain ⟨-, hs, hf⟩ := convertR_spec h
    exact ⟨by rw [hs, hf], by rw [hs, g39]; decide, render_isSome (by rw [hs, hf])⟩
  rw [if_neg g39] at h
  by_cases g40 : t.opcode = "sh3add.uw"
  · rw [if_pos g40] at h
    obtain ⟨-, hs, hf⟩ := convertR_spec h
    exact ⟨by rw [hs, hf], by rw [hs, g40]; decide, render_isSome (by rw [hs, hf])⟩
  rw [if_neg g40] at h
  by_cases g41 : t.opcode = "slli.uw"
  · rw [if_pos g41] at h
    obtain ⟨-, hs, hf⟩ := convertShift_spec h
    exact ⟨by rw [hs, hf], by rw [hs, g41]; decide, render_isSome (by rw [hs, hf])⟩
  rw [if_neg g41] at h
  by_cases g42 : t.opcode = "xnor"
  · rw [if_pos g42] at h
    obtain ⟨-, hs, hf⟩ := convertR_spec h
    exact ⟨by rw [hs, hf], by rw [hs, g42]; decide, render_isSome (by rw [hs, hf])⟩
  rw [if_neg g42] at h
  by_cases g43 : t.opcode = "zext.h"
  · rw [if_pos g43] at h
    obtain ⟨-, hs, hf, -⟩ := convertUnary_spec h
    exact ⟨by rw [hs, hf], by rw [hs, g43]; decide, render_isSome (by rw [hs, hf])⟩
  rw [if_neg g43] at h
  exact absurd h (by simp)

theorem c10_witness :
    ∃ b, (TextInstruction.mk "rori" ["a0", "a1", "3"] none).convert = some b ∧
      (b.flag_shamt = b.flag_funct6 ∧
        (b.flag_shamt = true ↔
          (TextInstruction.mk "rori" ["a0", "a1", "3"] none).opcode ∈ shiftImmMnemonics) ∧
        b.render.isSome = true) :=
  ⟨((TextInstruction.mk "rori" ["a0", "a1", "3"] none).convert).get (by decide),
    (Option.some_get (by decide)).symm,
    c10_flag_pairing (TextInstruction.mk "rori" ["a0", "a1", "3"] none) _
      (Option.some_get (by decide)).symm⟩

